import Mathlib

/-!
# DefiBrain SDK — verification of the natural-language specification

A shallow embedding of the DefiBrain SDK's TypeScript sources
(`src/utils/ValidationHelper.ts`, `src/utils/RetryHelper.ts`,
`src/utils/TransactionHelper.ts`, `src/DefiBrainClient.ts`, `src/config.ts`,
`src/helpers/OneInchHelper.ts`, `src/helpers/UniswapHelper.ts`) in Lean 4,
together with theorems settling the specification's claims about them.

JavaScript strings are embedded as `List Char`, JavaScript `BigInt` as `Int`
(with JS `BigInt` division/remainder, which truncate toward zero, embedded as
`Int.tdiv` / `Int.tmod`), and fallible operations as `Except`/`Option`.
-/

/-- JS strings are modelled as lists of characters. -/
abbrev Str := List Char

/-- A thrown JS `Error`, identified by its message (the SDK only ever
inspects/propagates messages). -/
structure JsError where
  message : Str
deriving DecidableEq, Repr

deriving instance DecidableEq for Except

/-- Whitespace characters recognised by the model of `String.prototype.trim`
and of `BigInt(string)` (the common ASCII subset: space, tab, LF, CR, given
by code point). -/
def isWsChar (c : Char) : Bool :=
  c.toNat = 32 || c.toNat = 9 || c.toNat = 10 || c.toNat = 13

/-- Decimal digit character test (`0`–`9`), stated numerically over
code points so that arithmetic reasoning stays in `Nat`. -/
def isDigitChar (c : Char) : Bool :=
  48 ≤ c.toNat && c.toNat ≤ 57

/-- Numeric value of a decimal digit character. -/
def digToNat (c : Char) : Nat := c.toNat - 48

/-- The decimal digit character for `n < 10` (total, defaulting to `'0'`). -/
def digitChar : Nat → Char
  | 0 => '0' | 1 => '1' | 2 => '2' | 3 => '3' | 4 => '4'
  | 5 => '5' | 6 => '6' | 7 => '7' | 8 => '8' | 9 => '9'
  | _ => '0'

/-- Value of a most-significant-first decimal digit string. -/
def digitsToNat (s : Str) : Nat :=
  s.foldl (fun a c => a * 10 + digToNat c) 0

/-- Fuel-driven worker for `natToDigits` (structural recursion on the fuel,
so that the kernel can evaluate it). -/
def natToDigitsF (fuel n : Nat) : Str :=
  match fuel with
  | 0 => []
  | fuel + 1 =>
    if n < 10 then [digitChar n]
    else natToDigitsF fuel (n / 10) ++ [digitChar (n % 10)]

/-- Canonical decimal rendering of a natural number (the embedding of
JS `BigInt.prototype.toString` on non-negative values). -/
def natToDigits (n : Nat) : Str := natToDigitsF (n + 1) n

/-- Embedding of JS `BigInt.prototype.toString` (base 10). -/
def intToDecStr (i : Int) : Str :=
  if i < 0 then '-' :: natToDigits i.natAbs else natToDigits i.natAbs

/-- Embedding of `String.prototype.trim` (ASCII whitespace). -/
def trimWs (s : Str) : Str :=
  ((s.dropWhile isWsChar).reverse.dropWhile isWsChar).reverse

/-- Embedding of the JS `BigInt(string)` constructor on decimal inputs:
whitespace is trimmed, the empty string denotes `0`, an optional sign is
followed by decimal digits; anything else throws (`none`).  (The hex/octal
literal forms accepted by `BigInt` are never produced by this SDK and are
not modelled.) -/
def jsBigInt? (s : Str) : Option Int :=
  match trimWs s with
  | [] => some 0
  | c :: rest =>
    if c = '-' then
      if rest ≠ [] ∧ rest.all isDigitChar then some (-(digitsToNat rest : Int)) else none
    else if c = '+' then
      if rest ≠ [] ∧ rest.all isDigitChar then some ((digitsToNat rest : Int)) else none
    else
      if (c :: rest).all isDigitChar then some ((digitsToNat (c :: rest) : Int)) else none

/-- Embedding of `String.prototype.split('.')`. -/
def splitDot : Str → List Str
  | [] => [[]]
  | c :: t =>
    let r := splitDot t
    if c = '.' then [] :: r
    else
      match r with
      | [] => [[c]]
      | h :: t' => (c :: h) :: t'

/-- Embedding of `String.prototype.padStart(n, '0')`. -/
def padStartZ (s : Str) (n : Nat) : Str :=
  List.replicate (n - s.length) '0' ++ s

/-- Embedding of `String.prototype.padEnd(n, '0')`. -/
def padEndZ (s : Str) (n : Nat) : Str :=
  s ++ List.replicate (n - s.length) '0'

/-- Embedding of `String.prototype.replace(/0+$/, '')`. -/
def stripTrailZeros (s : Str) : Str :=
  (s.reverse.dropWhile (fun c => c == '0')).reverse

/-- Substring containment (JS `String.prototype.includes`). -/
def strIncludes (s sub : Str) : Bool :=
  (List.range (s.length + 1)).any (fun i => (s.drop i).take sub.length == sub)

/-! ## ValidationHelper.ts -/

/-- Hexadecimal digit character test (`0-9a-fA-F`), numerically. -/
def isHexChar (c : Char) : Bool :=
  (48 ≤ c.toNat && c.toNat ≤ 57) || (97 ≤ c.toNat && c.toNat ≤ 102) ||
    (65 ≤ c.toNat && c.toNat ≤ 70)

/-- `isValidAddress` from `ValidationHelper.ts`: the regex
`/^0x[a-fA-F0-9]{40}$/`. -/
def isValidAddress (s : Str) : Bool :=
  match s with
  | c0 :: c1 :: rest => c0 == '0' && c1 == 'x' && rest.length == 40 && rest.all isHexChar
  | _ => false

/-- `isValidTxHash` from `ValidationHelper.ts`: the regex
`/^0x[a-fA-F0-9]{64}$/`. -/
def isValidTxHash (s : Str) : Bool :=
  match s with
  | c0 :: c1 :: rest => c0 == '0' && c1 == 'x' && rest.length == 64 && rest.all isHexChar
  | _ => false

/-- `isValidAmount` from `ValidationHelper.ts`: `BigInt(amount) > 0n`,
`false` when the conversion throws. -/
def isValidAmount (s : Str) : Bool :=
  match jsBigInt? s with
  | some n => n > 0
  | none => false

/-- `isValidChainId` from `ValidationHelper.ts`: `Number.isInteger(chainId)
&& chainId > 0`; chain ids are embedded as `Int` (integrality is carried by
the embedding type). -/
def isValidChainId (c : Int) : Bool := c > 0

/-- The error message `Invalid amount format: ${amount}` thrown by
`parseAmount`. -/
def invalidAmountMsg (s : Str) : Str :=
  "Invalid amount format: ".data ++ s

/-- `BigInt(10 ** decimals)`.  Exact for `decimals ≤ 22`, where the
double-precision value `10 ** decimals` is an exact integer; the round-trip
theorems below assume `decimals ≤ 22` for this reason. -/
def pow10 (d : Nat) : Int := (10 : Int) ^ d

/-- The success branch of `formatAmount` (the `try` body after
`BigInt(amount)` succeeded with value `a`). -/
def formatAmountBody (a : Int) (d : Nat) : Str :=
  let divisor := pow10 d
  let whole := a.tdiv divisor
  let remainder := a.tmod divisor
  if remainder = 0 then intToDecStr whole
  else
    let remainderStr := padStartZ (intToDecStr remainder) d
    let trimmed := stripTrailZeros remainderStr
    intToDecStr whole ++ '.' :: trimmed

/-- `formatAmount` from `ValidationHelper.ts`: render a base-unit integer
string with `d` decimals, stripping trailing fractional zeros and the
decimal point when the fraction vanishes; any `BigInt` conversion error
returns the input unchanged. -/
def formatAmount (s : Str) (d : Nat) : Str :=
  match jsBigInt? s with
  | none => s
  | some a => formatAmountBody a d

/-- `parseAmount` from `ValidationHelper.ts`: split on `'.'` (destructuring
only the first two components, like `const [whole, decimal = ''] =
amount.split('.')`), require a non-empty integer part, right-pad/truncate
the fraction to exactly `d` digits and return
`BigInt(whole) * 10^d + BigInt(decimalPadded || '0')` as a string; every
failure throws `Invalid amount format: ${amount}`. -/
def parseAmount (s : Str) (d : Nat) : Except JsError Str :=
  if s = [] ∨ trimWs s = [] then .error ⟨invalidAmountMsg s⟩
  else
    let parts := splitDot s
    let whole := parts.headD []
    let dec := (parts.drop 1).headD []
    if whole = [] then .error ⟨invalidAmountMsg s⟩
    else
      let decimalPadded := (padEndZ dec d).take d
      match jsBigInt? whole, jsBigInt? (if decimalPadded = [] then ['0'] else decimalPadded) with
      | some w, some dv => .ok (intToDecStr (w * pow10 d + dv))
      | _, _ => .error ⟨invalidAmountMsg s⟩

example : parseAmount "1.5".data 18 = .ok "1500000000000000000".data := by decide
example : formatAmount "1500000000000000000".data 18 = "1.5".data := by decide
example : formatAmount "1005000000000000000".data 18 = "1.005".data := by decide
example : formatAmount (parseAmount "1.50".data 18).toOption.get! 18 = "1.5".data := by decide

/-! ## Decimal digit-string lemmas -/

theorem digToNat_digitChar {n : Nat} (h : n < 10) : digToNat (digitChar n) = n := by
  interval_cases n <;> decide

theorem isDigitChar_digitChar (n : Nat) : isDigitChar (digitChar n) = true := by
  unfold digitChar
  split <;> decide

theorem digitChar_toNat {n : Nat} (h : n < 10) : (digitChar n).toNat = 48 + n := by
  interval_cases n <;> decide

theorem char_toNat_inj {c c' : Char} (h : c.toNat = c'.toNat) : c = c' :=
  Char.eq_of_val_eq (UInt32.ext h)

theorem digitChar_digToNat {c : Char} (h : isDigitChar c = true) :
    digitChar (digToNat c) = c := by
  simp only [isDigitChar, Bool.and_eq_true, decide_eq_true_eq] at h
  apply char_toNat_inj
  rw [digitChar_toNat (by unfold digToNat; omega)]
  unfold digToNat
  omega

theorem digToNat_lt_ten {c : Char} (h : isDigitChar c = true) : digToNat c < 10 := by
  simp only [isDigitChar, Bool.and_eq_true, decide_eq_true_eq] at h
  unfold digToNat; omega

theorem digToNat_pos {c : Char} (h : isDigitChar c = true) (h0 : c ≠ '0') :
    1 ≤ digToNat c := by
  simp only [isDigitChar, Bool.and_eq_true, decide_eq_true_eq] at h
  have : c.toNat ≠ 48 := fun he => h0 (char_toNat_inj (by rw [he]; decide))
  unfold digToNat; omega

theorem digitsToNatFrom_eq (b : Str) : ∀ x : Nat,
    b.foldl (fun a c => a * 10 + digToNat c) x
      = x * 10 ^ b.length + digitsToNat b := by
  induction b with
  | nil => intro x; simp [digitsToNat]
  | cons c t ih =>
    intro x
    show t.foldl _ (x * 10 + digToNat c) = _
    rw [ih (x * 10 + digToNat c)]
    have : digitsToNat (c :: t) = (digToNat c) * 10 ^ t.length + digitsToNat t := by
      show t.foldl _ (0 * 10 + digToNat c) = _
      rw [ih (0 * 10 + digToNat c)]; ring_nf
    rw [this]
    simp [List.length_cons, pow_succ]
    ring

theorem digitsToNat_append (a b : Str) :
    digitsToNat (a ++ b) = digitsToNat a * 10 ^ b.length + digitsToNat b := by
  unfold digitsToNat
  rw [List.foldl_append, digitsToNatFrom_eq]
  rfl

theorem digitsToNat_cons (c : Char) (t : Str) :
    digitsToNat (c :: t) = digToNat c * 10 ^ t.length + digitsToNat t := by
  have := digitsToNat_append [c] t
  simpa [digitsToNat] using this

theorem digitsToNat_replicate_zero (m : Nat) :
    digitsToNat (List.replicate m '0') = 0 := by
  induction m with
  | zero => rfl
  | succ k ih =>
    rw [List.replicate_succ, digitsToNat_cons, ih]
    simp [show digToNat '0' = 0 from rfl]

theorem digitsToNat_lt (s : Str) (h : ∀ c ∈ s, isDigitChar c = true) :
    digitsToNat s < 10 ^ s.length := by
  induction s with
  | nil => simp [digitsToNat]
  | cons c t ih =>
    rw [digitsToNat_cons]
    have hc : digToNat c < 10 := digToNat_lt_ten (h c (by simp))
    have ht : digitsToNat t < 10 ^ t.length := ih (fun x hx => h x (by simp [hx]))
    have : (digToNat c) * 10 ^ t.length + digitsToNat t
        < (digToNat c + 1) * 10 ^ t.length := by
      have := pow_pos (show 0 < 10 by norm_num) t.length
      nlinarith
    calc digToNat c * 10 ^ t.length + digitsToNat t
        < (digToNat c + 1) * 10 ^ t.length := this
      _ ≤ 10 * 10 ^ t.length := by
          have := pow_pos (show 0 < 10 by norm_num) t.length
          nlinarith
      _ = 10 ^ (c :: t).length := by rw [List.length_cons]; ring

theorem digitsToNat_mod_ten (b : Str) (c : Char) (h : isDigitChar c = true) :
    digitsToNat (b ++ [c]) % 10 = digToNat c := by
  rw [digitsToNat_append]
  have h1 : digitsToNat [c] = digToNat c := by simp [digitsToNat]
  rw [h1, List.length_singleton, pow_one]
  have := digToNat_lt_ten h
  omega

/-! ## natToDigits lemmas -/

theorem natToDigitsF_congr : ∀ fuel fuel' n : Nat, n < fuel → n < fuel' →
    natToDigitsF fuel n = natToDigitsF fuel' n := by
  intro fuel
  induction fuel with
  | zero => intro fuel' n h; omega
  | succ f ih =>
    intro fuel' n h h'
    match fuel', h' with
    | f' + 1, h' =>
      show natToDigitsF (f + 1) n = natToDigitsF (f' + 1) n
      unfold natToDigitsF
      by_cases h10 : n < 10
      · simp [h10]
      · simp only [h10, if_false]
        have hdiv : n / 10 < n := Nat.div_lt_self (by omega) (by omega)
        rw [ih f' (n / 10) (by omega) (by omega)]

theorem natToDigits_lt {n : Nat} (h : n < 10) : natToDigits n = [digitChar n] := by
  unfold natToDigits natToDigitsF
  simp [h]

theorem natToDigits_ge {n : Nat} (h : ¬ n < 10) :
    natToDigits n = natToDigits (n / 10) ++ [digitChar (n % 10)] := by
  show natToDigitsF (n + 1) n = _
  unfold natToDigitsF
  simp only [h, if_false]
  unfold natToDigits
  rw [natToDigitsF_congr n (n / 10 + 1) (n / 10)
    (Nat.div_lt_self (by omega) (by omega)) (by omega)]

theorem natToDigits_ne_nil (n : Nat) : natToDigits n ≠ [] := by
  by_cases h : n < 10
  · rw [natToDigits_lt h]; simp
  · rw [natToDigits_ge h]; simp

theorem natToDigits_all_digits (n : Nat) : ∀ c ∈ natToDigits n, isDigitChar c = true := by
  induction n using Nat.strong_induction_on with
  | _ n ih =>
    by_cases h : n < 10
    · rw [natToDigits_lt h]
      intro c hc
      simp at hc
      subst hc
      exact isDigitChar_digitChar n
    · rw [natToDigits_ge h]
      intro c hc
      rcases List.mem_append.mp hc with hc | hc
      · exact ih (n / 10) (Nat.div_lt_self (by omega) (by omega)) c hc
      · simp at hc
        subst hc
        exact isDigitChar_digitChar (n % 10)

theorem digitsToNat_natToDigits (n : Nat) : digitsToNat (natToDigits n) = n := by
  induction n using Nat.strong_induction_on with
  | _ n ih =>
    by_cases h : n < 10
    · rw [natToDigits_lt h]
      simp [digitsToNat, digToNat_digitChar h]
    · rw [natToDigits_ge h, digitsToNat_append,
        ih (n / 10) (Nat.div_lt_self (by omega) (by omega))]
      have : digitsToNat [digitChar (n % 10)] = n % 10 := by
        simp [digitsToNat, digToNat_digitChar (Nat.mod_lt n (by omega))]
      rw [this]
      simp [pow_one]
      omega

theorem natToDigits_length_le {n k : Nat} (hk : 1 ≤ k) (h : n < 10 ^ k) :
    (natToDigits n).length ≤ k := by
  induction n using Nat.strong_induction_on generalizing k with
  | _ n ih =>
    by_cases h10 : n < 10
    · rw [natToDigits_lt h10]; simpa using hk
    · rw [natToDigits_ge h10]
      have hk2 : 2 ≤ k := by
        by_contra hlt
        have : k = 1 := by omega
        subst this
        simp [pow_one] at h
        omega
      have hdiv : n / 10 < 10 ^ (k - 1) := by
        have : n < 10 ^ (k - 1) * 10 := by
          have : 10 ^ (k - 1) * 10 = 10 ^ k := by
            rw [← pow_succ]
            congr 1
            omega
          omega
        omega
      have := ih (n / 10) (Nat.div_lt_self (by omega) (by omega)) (k := k - 1)
        (by omega) hdiv
      simp only [List.length_append, List.length_singleton]
      omega

theorem natToDigits_mul_ten {n : Nat} (h : 1 ≤ n) :
    natToDigits (n * 10) = natToDigits n ++ ['0'] := by
  have h10 : ¬ n * 10 < 10 := by omega
  rw [natToDigits_ge h10]
  have h1 : n * 10 / 10 = n := by omega
  have h2 : n * 10 % 10 = 0 := by omega
  rw [h1, h2]
  rfl

theorem natToDigits_mul_pow10 {n : Nat} (m : Nat) (h : 1 ≤ n) :
    natToDigits (n * 10 ^ m) = natToDigits n ++ List.replicate m '0' := by
  induction m with
  | zero => simp
  | succ k ih =>
    have : n * 10 ^ (k + 1) = (n * 10 ^ k) * 10 := by ring
    rw [this, natToDigits_mul_ten (Nat.mul_pos (by omega) (pow_pos (by norm_num) k)), ih,
      List.append_assoc]
    congr 1
    rw [List.replicate_succ']

theorem natToDigits_getLast (n : Nat) :
    (natToDigits n).getLast (natToDigits_ne_nil n) = digitChar (n % 10) := by
  by_cases h : n < 10
  · rw [List.getLast_eq_iff_getLast?_eq_some]
    rw [natToDigits_lt h]
    simp [Nat.mod_eq_of_lt h]
  · rw [List.getLast_eq_iff_getLast?_eq_some]
    rw [natToDigits_ge h]
    simp

theorem natToDigits_recover : ∀ s : Str, s ≠ [] →
    (∀ c ∈ s, isDigitChar c = true) → s.head? ≠ some '0' →
    natToDigits (digitsToNat s) = s := by
  intro s
  induction s using List.reverseRecOn with
  | nil => intro h; exact absurd rfl h
  | append_singleton b c ih =>
    intro _ hdig hhead
    by_cases hb : b = []
    · subst hb
      simp only [List.nil_append] at hdig ⊢
      have hc : isDigitChar c = true := hdig c (by simp)
      have h1 : digitsToNat [c] = digToNat c := by simp [digitsToNat]
      rw [h1, natToDigits_lt (digToNat_lt_ten hc), digitChar_digToNat hc]
    · obtain ⟨x, t, rfl⟩ : ∃ x t, b = x :: t := by
        match b, hb with
        | x :: t, _ => exact ⟨x, t, rfl⟩
      have hbdig : ∀ y ∈ x :: t, isDigitChar y = true := fun y hy => hdig y (by
        rcases List.mem_cons.mp hy with h | h
        · simp [h]
        · simp [h])
      have hbhead : (x :: t).head? ≠ some '0' := by
        intro hcontra
        exact hhead (by simpa using hcontra)
      have hx : isDigitChar x = true := hbdig x (by simp)
      have hx0 : x ≠ '0' := by
        intro hxe
        exact hbhead (by simp [hxe])
      have hbpos : 1 ≤ digitsToNat (x :: t) := by
        rw [digitsToNat_cons]
        have h1 := digToNat_pos hx hx0
        have h2 := pow_pos (show 0 < 10 by norm_num) t.length
        nlinarith
      have hcd : isDigitChar c = true := hdig c (by simp)
      have hval : digitsToNat (x :: t ++ [c]) = digitsToNat (x :: t) * 10 + digToNat c := by
        rw [digitsToNat_append]
        simp [digitsToNat, pow_one]
      have hge : ¬ digitsToNat (x :: t ++ [c]) < 10 := by
        rw [hval]
        have := digToNat_lt_ten hcd
        omega
      rw [natToDigits_ge hge]
      have hdiv : digitsToNat (x :: t ++ [c]) / 10 = digitsToNat (x :: t) := by
        rw [hval]
        have := digToNat_lt_ten hcd
        omega
      have hmod : digitsToNat (x :: t ++ [c]) % 10 = digToNat c :=
        digitsToNat_mod_ten (x :: t) c hcd
      rw [hdiv, hmod, ih hb hbdig hbhead, digitChar_digToNat hcd]

/-! ## String-helper lemmas -/

theorem digit_not_ws {c : Char} (h : isDigitChar c = true) : isWsChar c = false := by
  simp only [isDigitChar, Bool.and_eq_true, decide_eq_true_eq] at h
  simp only [isWsChar, Bool.or_eq_false_iff, decide_eq_false_iff_not]
  omega

theorem digit_ne_dot {c : Char} (h : isDigitChar c = true) : c ≠ '.' := by
  intro hc
  subst hc
  exact absurd h (by decide)

theorem dropWhile_of_forall_false {p : Char → Bool} {l : Str}
    (h : ∀ c ∈ l, p c = false) : l.dropWhile p = l := by
  cases l with
  | nil => rfl
  | cons a t => simp [List.dropWhile_cons, h a (by simp)]

theorem trimWs_eq_self {s : Str} (h : ∀ c ∈ s, isWsChar c = false) : trimWs s = s := by
  unfold trimWs
  rw [dropWhile_of_forall_false h,
    dropWhile_of_forall_false (fun c hc => h c (List.mem_reverse.mp hc)),
    List.reverse_reverse]

theorem jsBigInt?_digits {s : Str} (h : ∀ c ∈ s, isDigitChar c = true) :
    jsBigInt? s = some ((digitsToNat s : Nat) : Int) := by
  have ht : trimWs s = s := trimWs_eq_self (fun c hc => digit_not_ws (h c hc))
  unfold jsBigInt?
  rw [ht]
  split
  · simp [digitsToNat]
  · rename_i c rest
    have hc : isDigitChar c = true := h c (by simp)
    rw [if_neg, if_neg, if_pos]
    · exact List.all_eq_true.mpr h
    · intro hce; subst hce; exact absurd hc (by decide)
    · intro hce; subst hce; exact absurd hc (by decide)

theorem splitDot_ne_nil (s : Str) : splitDot s ≠ [] := by
  cases s with
  | nil => simp [splitDot]
  | cons c t =>
    unfold splitDot
    by_cases h : c = '.'
    · simp [h]
    · simp only [h, if_false]
      match splitDot t with
      | [] => simp
      | h' :: t' => simp

theorem splitDot_no_dot {s : Str} (h : ∀ c ∈ s, c ≠ '.') : splitDot s = [s] := by
  induction s with
  | nil => rfl
  | cons c t ih =>
    unfold splitDot
    rw [ih (fun x hx => h x (by simp [hx]))]
    simp [h c (by simp)]

theorem splitDot_cons (c : Char) (t : Str) :
    splitDot (c :: t) = if c = '.' then [] :: splitDot t
      else match splitDot t with | [] => [[c]] | h :: t' => (c :: h) :: t' := rfl

theorem splitDot_append {a : Str} (rest : Str) (h : ∀ c ∈ a, c ≠ '.') :
    splitDot (a ++ '.' :: rest) = a :: splitDot rest := by
  induction a with
  | nil => simp [splitDot]
  | cons c t ih =>
    have htail := ih (fun x hx => h x (by simp [hx]))
    show splitDot (c :: (t ++ '.' :: rest)) = _
    rw [splitDot_cons, htail, if_neg (h c (by simp))]

theorem dropWhile_replicate_append {p : Char → Bool} {a : Char} (m : Nat) (x : Str)
    (h : p a = true) :
    List.dropWhile p (List.replicate m a ++ x) = List.dropWhile p x := by
  induction m with
  | zero => simp
  | succ k ih => rw [List.replicate_succ, List.cons_append, List.dropWhile_cons, if_pos h, ih]

theorem stripTrailZeros_spec (a : Str) (c : Char) (m : Nat) (hc : c ≠ '0') :
    stripTrailZeros ((a ++ [c]) ++ List.replicate m '0') = a ++ [c] := by
  unfold stripTrailZeros
  rw [List.reverse_append, List.reverse_replicate, List.reverse_append,
    dropWhile_replicate_append m _ (by simp)]
  simp only [List.reverse_singleton, List.singleton_append, List.dropWhile_cons]
  rw [if_neg (by simp [hc])]
  simp

theorem dropWhile_head_false {p : Char → Bool} (l : Str) {x : Char}
    (h : (l.dropWhile p).head? = some x) : p x = false := by
  induction l with
  | nil => simp [List.dropWhile] at h
  | cons a t ih =>
    rw [List.dropWhile_cons] at h
    by_cases hp : p a
    · rw [if_pos hp] at h; exact ih h
    · rw [if_neg hp] at h
      simp at h
      subst h
      simpa using hp

/-! ## Cast bridges between `Int` (JS BigInt) and `Nat` -/

theorem intToDecStr_natCast (n : Nat) : intToDecStr (n : Int) = natToDigits n := by
  unfold intToDecStr
  rw [if_neg (by omega), Int.natAbs_ofNat]

theorem tdiv_natCast (m n : Nat) : Int.tdiv (m : Int) (n : Int) = ((m / n : Nat) : Int) := rfl

theorem tmod_natCast (m n : Nat) : Int.tmod (m : Int) (n : Int) = ((m % n : Nat) : Int) := rfl

theorem pow10_natCast (d : Nat) : pow10 d = ((10 ^ d : Nat) : Int) := by
  unfold pow10
  push_cast
  ring

/-- The canonical human-readable decimal string with integer value `w` and
fractional digit string `f` (`f` empty meaning "no decimal point"). -/
def mkAmountStr (w : Nat) (f : Str) : Str :=
  if f = [] then natToDigits w else natToDigits w ++ '.' :: f

theorem mkAmountStr_not_ws {w : Nat} {f : Str} (hf : ∀ c ∈ f, isDigitChar c = true) :
    ∀ c ∈ mkAmountStr w f, isWsChar c = false := by
  intro c hc
  unfold mkAmountStr at hc
  split at hc
  · exact digit_not_ws (natToDigits_all_digits w c hc)
  · rcases List.mem_append.mp hc with h | h
    · exact digit_not_ws (natToDigits_all_digits w c h)
    · rcases List.mem_cons.mp h with h | h
      · subst h; decide
      · exact digit_not_ws (hf c h)

theorem mkAmountStr_ne_nil (w : Nat) (f : Str) : mkAmountStr w f ≠ [] := by
  unfold mkAmountStr
  split
  · exact natToDigits_ne_nil w
  · simp [natToDigits_ne_nil w]

theorem jsBigInt?_pad_zeros (d : Nat) :
    jsBigInt? (if List.replicate d '0' = [] then ['0'] else List.replicate d '0')
      = some ((0 : Nat) : Int) := by
  by_cases hd : d = 0
  · subst hd
    simp only [List.replicate_zero, if_pos rfl]
    rw [jsBigInt?_digits (by decide)]
    norm_num [digitsToNat, digToNat]
    decide
  · rw [if_neg (by simp [hd])]
    rw [jsBigInt?_digits (fun c hc => by rw [List.eq_of_mem_replicate hc]; decide)]
    rw [digitsToNat_replicate_zero]

theorem parseAmount_mkAmountStr (w : Nat) (f : Str) (d : Nat)
    (hf : ∀ c ∈ f, isDigitChar c = true) (hlen : f.length ≤ d) :
    parseAmount (mkAmountStr w f) d
      = .ok (natToDigits (w * 10 ^ d + digitsToNat f * 10 ^ (d - f.length))) := by
  have hWd := natToDigits_all_digits w
  have hWne := natToDigits_ne_nil w
  have hWnodot : ∀ c ∈ natToDigits w, c ≠ '.' := fun c hc => digit_ne_dot (hWd c hc)
  have hnws := mkAmountStr_not_ws (w := w) hf
  have hcond : ¬ (mkAmountStr w f = [] ∨ trimWs (mkAmountStr w f) = []) := by
    rw [trimWs_eq_self hnws]
    simp [mkAmountStr_ne_nil w f]
  have hW : jsBigInt? (natToDigits w) = some ((w : Nat) : Int) := by
    rw [jsBigInt?_digits hWd, digitsToNat_natToDigits]
  by_cases hfe : f = []
  · subst hfe
    have hmk : mkAmountStr w [] = natToDigits w := by unfold mkAmountStr; simp
    unfold parseAmount
    rw [if_neg hcond, hmk, splitDot_no_dot hWnodot]
    simp only [List.headD_cons, List.drop_succ_cons, List.drop_zero, List.headD_nil]
    rw [if_neg hWne]
    have hpad : (padEndZ [] d).take d = List.replicate d '0' := by
      unfold padEndZ
      simp [List.take_replicate]
    rw [hpad, hW, jsBigInt?_pad_zeros d]
    have hcast : intToDecStr ((w : Int) * pow10 d + ((0 : Nat) : Int))
        = natToDigits (w * 10 ^ d + digitsToNat [] * 10 ^ (d - List.length ([] : Str))) := by
      rw [pow10_natCast,
        show ((w : Int) * ((10 ^ d : Nat) : Int) + ((0 : Nat) : Int))
          = ((w * 10 ^ d + digitsToNat [] * 10 ^ (d - List.length ([] : Str)) : Nat) : Int) by
            simp [digitsToNat]]
      exact intToDecStr_natCast _
    exact congrArg Except.ok hcast
  · have hmk : mkAmountStr w f = natToDigits w ++ '.' :: f := by
      unfold mkAmountStr
      simp [hfe]
    have hfnodot : ∀ c ∈ f, c ≠ '.' := fun c hc => digit_ne_dot (hf c hc)
    unfold parseAmount
    rw [if_neg hcond, hmk, splitDot_append f hWnodot, splitDot_no_dot hfnodot]
    simp only [List.headD_cons, List.drop_succ_cons, List.drop_zero]
    rw [if_neg hWne]
    have hpad : (padEndZ f d).take d = f ++ List.replicate (d - f.length) '0' := by
      unfold padEndZ
      apply List.take_of_length_le
      simp
      omega
    rw [hpad, if_neg (by simp [hfe]), hW, jsBigInt?_digits (s := f ++ _) (by
      intro c hc
      rcases List.mem_append.mp hc with h | h
      · exact hf c h
      · rw [List.eq_of_mem_replicate h]
        decide)]
    have hcast : intToDecStr ((w : Int) * pow10 d
            + ((digitsToNat (f ++ List.replicate (d - f.length) '0') : Nat) : Int))
        = natToDigits (w * 10 ^ d + digitsToNat f * 10 ^ (d - f.length)) := by
      rw [digitsToNat_append, digitsToNat_replicate_zero, List.length_replicate,
        pow10_natCast,
        show ((w : Int) * ((10 ^ d : Nat) : Int)
            + ((digitsToNat f * 10 ^ (d - f.length) + 0 : Nat) : Int))
          = ((w * 10 ^ d + digitsToNat f * 10 ^ (d - f.length) : Nat) : Int) by
            push_cast
            ring]
      exact intToDecStr_natCast _
    exact congrArg Except.ok hcast

theorem formatAmount_eval (s : Str) (n d : Nat) (h : jsBigInt? s = some ((n : Nat) : Int)) :
    formatAmount s d =
      if n % 10 ^ d = 0 then natToDigits (n / 10 ^ d)
      else natToDigits (n / 10 ^ d) ++ '.' ::
        stripTrailZeros (padStartZ (natToDigits (n % 10 ^ d)) d) := by
  unfold formatAmount
  rw [h]
  show formatAmountBody ((n : Nat) : Int) d = _
  unfold formatAmountBody
  simp only [pow10_natCast, tdiv_natCast, tmod_natCast, intToDecStr_natCast]
  by_cases h0 : n % 10 ^ d = 0
  · rw [if_pos (by rw [h0]; simp), if_pos h0]
  · rw [if_neg (by exact_mod_cast h0), if_neg h0]

theorem digitChar_ne_zero {j : Nat} (h1 : 1 ≤ j) (h2 : j < 10) : digitChar j ≠ '0' := by
  interval_cases j <;> decide

theorem digits_leading_zeros (f : Str) (hf : ∀ c ∈ f, isDigitChar c = true)
    (hpos : 1 ≤ digitsToNat f) :
    List.replicate (f.length - (natToDigits (digitsToNat f)).length) '0'
      ++ natToDigits (digitsToNat f) = f := by
  have hzr : f.takeWhile (fun c => c == '0') ++ f.dropWhile (fun c => c == '0') = f :=
    List.takeWhile_append_dropWhile _ _
  have hz_rep : f.takeWhile (fun c => c == '0')
      = List.replicate (f.takeWhile (fun c => c == '0')).length '0' :=
    List.eq_replicate_of_mem (fun b hb => by
      have := List.mem_takeWhile_imp hb
      simpa using this)
  have hval : digitsToNat (f.dropWhile (fun c => c == '0')) = digitsToNat f := by
    conv_rhs => rw [← hzr]
    rw [digitsToNat_append]
    conv_lhs => rw [← Nat.zero_add (digitsToNat _)]
    congr 1
    rw [hz_rep, digitsToNat_replicate_zero, Nat.zero_mul]
  have hr_ne : f.dropWhile (fun c => c == '0') ≠ [] := by
    intro he
    rw [he, show digitsToNat [] = 0 from rfl] at hval
    omega
  have hr_head : (f.dropWhile (fun c => c == '0')).head? ≠ some '0' := by
    intro hcontra
    have := dropWhile_head_false _ hcontra
    simp at this
  have hr_dig : ∀ c ∈ f.dropWhile (fun c => c == '0'), isDigitChar c = true :=
    fun c hc => hf c ((List.dropWhile_sublist _).subset hc)
  have hg_eq : natToDigits (digitsToNat f) = f.dropWhile (fun c => c == '0') := by
    rw [← hval]
    exact natToDigits_recover _ hr_ne hr_dig hr_head
  have hlenf : f.length = (f.takeWhile (fun c => c == '0')).length
      + (f.dropWhile (fun c => c == '0')).length := by
    have := congrArg List.length hzr
    simp only [List.length_append] at this
    omega
  rw [hg_eq]
  have hkz : f.length - (f.dropWhile (fun c => c == '0')).length
      = (f.takeWhile (fun c => c == '0')).length := by omega
  rw [hkz, ← hz_rep, hzr]

theorem strip_pad_general (A m : Nat) (g : Str) (hg : g ≠ []) (hgl : g.getLast hg ≠ '0') :
    stripTrailZeros (List.replicate A '0' ++ (g ++ List.replicate m '0'))
      = List.replicate A '0' ++ g := by
  have hsplit := List.dropLast_append_getLast hg
  conv_lhs => rw [← hsplit]
  rw [← List.append_assoc, ← List.append_assoc,
    stripTrailZeros_spec (List.replicate A '0' ++ g.dropLast) _ m hgl,
    List.append_assoc, hsplit]

theorem formatAmount_mkAmountStr (w : Nat) (f : Str) (d : Nat)
    (hf : ∀ c ∈ f, isDigitChar c = true) (hlen : f.length ≤ d)
    (hlast : f.getLast? ≠ some '0') :
    formatAmount (natToDigits (w * 10 ^ d + digitsToNat f * 10 ^ (d - f.length))) d
      = mkAmountStr w f := by
  have hfv_lt : digitsToNat f < 10 ^ f.length := digitsToNat_lt f hf
  have hR_lt : digitsToNat f * 10 ^ (d - f.length) < 10 ^ d := by
    calc digitsToNat f * 10 ^ (d - f.length)
        < 10 ^ f.length * 10 ^ (d - f.length) :=
          Nat.mul_lt_mul_of_lt_of_le hfv_lt (le_refl _) (pow_pos (by norm_num) _)
      _ = 10 ^ d := by
          rw [← pow_add]
          congr 1
          omega
  have hN : w * 10 ^ d + digitsToNat f * 10 ^ (d - f.length)
      = 10 ^ d * w + digitsToNat f * 10 ^ (d - f.length) := by ring
  have hdiv : (w * 10 ^ d + digitsToNat f * 10 ^ (d - f.length)) / 10 ^ d = w := by
    rw [hN, Nat.mul_add_div (pow_pos (by norm_num) d), Nat.div_eq_of_lt hR_lt, Nat.add_zero]
  have hmod : (w * 10 ^ d + digitsToNat f * 10 ^ (d - f.length)) % 10 ^ d
      = digitsToNat f * 10 ^ (d - f.length) := by
    rw [hN, Nat.mul_add_mod, Nat.mod_eq_of_lt hR_lt]
  rw [formatAmount_eval _ (w * 10 ^ d + digitsToNat f * 10 ^ (d - f.length)) d
    (by rw [jsBigInt?_digits (natToDigits_all_digits _), digitsToNat_natToDigits]),
    hdiv, hmod]
  by_cases hfe : f = []
  · subst hfe
    rw [if_pos (by simp [digitsToNat])]
    unfold mkAmountStr
    simp
  · have hcl_dig : isDigitChar (f.getLast hfe) = true := hf _ (List.getLast_mem hfe)
    have hcl0 : f.getLast hfe ≠ '0' := by
      intro he
      apply hlast
      rw [List.getLast?_eq_getLast f hfe, he]
    have hfv10 : digitsToNat f % 10 = digToNat (f.getLast hfe) := by
      conv_lhs => rw [← List.dropLast_append_getLast hfe]
      exact digitsToNat_mod_ten _ _ hcl_dig
    have hfvpos : 1 ≤ digitsToNat f := by
      have h1 := digToNat_pos hcl_dig hcl0
      omega
    have hRpos : 1 ≤ digitsToNat f * 10 ^ (d - f.length) :=
      Nat.mul_pos hfvpos (pow_pos (by norm_num) _)
    rw [if_neg (by omega)]
    have hg : natToDigits (digitsToNat f * 10 ^ (d - f.length))
        = natToDigits (digitsToNat f) ++ List.replicate (d - f.length) '0' :=
      natToDigits_mul_pow10 _ hfvpos
    have hkey := digits_leading_zeros f hf hfvpos
    have hlg_le : (natToDigits (digitsToNat f)).length ≤ f.length := by
      have := congrArg List.length hkey
      simp only [List.length_append, List.length_replicate] at this
      omega
    have hpadS : padStartZ (natToDigits (digitsToNat f) ++ List.replicate (d - f.length) '0') d
        = List.replicate (f.length - (natToDigits (digitsToNat f)).length) '0'
          ++ (natToDigits (digitsToNat f) ++ List.replicate (d - f.length) '0') := by
      unfold padStartZ
      congr 2
      simp only [List.length_append, List.length_replicate]
      omega
    have hg_ne : natToDigits (digitsToNat f) ≠ [] := natToDigits_ne_nil _
    have hgl : (natToDigits (digitsToNat f)).getLast hg_ne = digitChar (digToNat (f.getLast hfe)) := by
      rw [natToDigits_getLast, hfv10]
    have hgl0 : (natToDigits (digitsToNat f)).getLast hg_ne ≠ '0' := by
      rw [hgl]
      exact digitChar_ne_zero (digToNat_pos hcl_dig hcl0) (digToNat_lt_ten hcl_dig)
    have hstrip : stripTrailZeros (padStartZ
          (natToDigits (digitsToNat f) ++ List.replicate (d - f.length) '0') d)
        = List.replicate (f.length - (natToDigits (digitsToNat f)).length) '0'
          ++ natToDigits (digitsToNat f) := by
      rw [hpadS]
      exact strip_pad_general _ _ _ hg_ne hgl0
    rw [hg, hstrip, hkey]
    unfold mkAmountStr
    rw [if_neg hfe]

/-- C1 (counterexample): the round-trip law as stated fails on the
human-readable decimal string `"1.50"`, which has 2 ≤ 18 fractional digits:
`formatAmount(parseAmount("1.50", 18), 18)` returns `"1.5"`, not `"1.50"`. -/
theorem C1_roundtrip_counterexample :
    (parseAmount "1.50".data 18).map (fun y => formatAmount y 18) ≠ Except.ok "1.50".data
    ∧ (parseAmount "1.50".data 18).map (fun y => formatAmount y 18) = Except.ok "1.5".data :=
  ⟨by decide, by decide⟩

/-- C1 (amended): for every canonical human-readable decimal string — an
integer part in canonical decimal form followed by an optional fractional
part that is non-empty, at most `d` digits long, and has no trailing zero —
`formatAmount(parseAmount(x, d), d) == x` (for `d ≤ 22`, where
`BigInt(10 ** d)` is exact); in particular
`parseAmount("1.5", 18) == "1500000000000000000"` and
`formatAmount("1500000000000000000", 18) == "1.5"`. -/
theorem C1_roundtrip_canonical (w : Nat) (f : Str) (d : Nat)
    (_hd : d ≤ 22) (hf : ∀ c ∈ f, isDigitChar c = true) (hlen : f.length ≤ d)
    (hlast : f.getLast? ≠ some '0') :
    (parseAmount (mkAmountStr w f) d).map (fun y => formatAmount y d)
        = Except.ok (mkAmountStr w f)
    ∧ parseAmount "1.5".data 18 = Except.ok "1500000000000000000".data
    ∧ formatAmount "1500000000000000000".data 18 = "1.5".data := by
  refine ⟨?_, by decide, by decide⟩
  rw [parseAmount_mkAmountStr w f d hf hlen]
  show Except.ok (formatAmount _ d) = _
  rw [formatAmount_mkAmountStr w f d hf hlen hlast]

/-- Witness for `C1_roundtrip_canonical` at `x = "1.5"`, `d = 18`. -/
theorem C1_roundtrip_canonical_witness :
    (parseAmount (mkAmountStr 1 ['5']) 18).map (fun y => formatAmount y 18)
      = Except.ok (mkAmountStr 1 ['5']) :=
  (C1_roundtrip_canonical 1 ['5'] 18 (by norm_num) (by decide) (by decide) (by decide)).1

/-! ## RetryHelper.ts -/

/-- `RetryOptions` with every field present (the shape of
`{ ...DEFAULT_OPTIONS, ...options }`).  Delay and factor fields are JS
numbers used only through `*`, `Math.pow`, `Math.min`; they are embedded as
`Nat`, exact whenever the intermediate products stay below `2^53`. -/
structure RetryOptions where
  maxRetries : Nat
  initialDelay : Nat
  maxDelay : Nat
  backoffFactor : Nat
  retryableErrors : List Str
deriving Repr

/-- `DEFAULT_OPTIONS` from `RetryHelper.ts`. -/
def DEFAULT_OPTIONS : RetryOptions :=
  ⟨3, 1000, 10000, 2,
    ["ECONNRESET".data, "ETIMEDOUT".data, "ENOTFOUND".data, "NetworkError".data]⟩

/-- The caller-supplied partial `RetryOptions`. -/
structure RetryOptionsPartial where
  maxRetries : Option Nat := none
  initialDelay : Option Nat := none
  maxDelay : Option Nat := none
  backoffFactor : Option Nat := none
  retryableErrors : Option (List Str) := none
deriving DecidableEq

/-- `{ ...DEFAULT_OPTIONS, ...options }`. -/
def mergeRetryOptions (o : RetryOptionsPartial) : RetryOptions :=
  ⟨o.maxRetries.getD DEFAULT_OPTIONS.maxRetries,
   o.initialDelay.getD DEFAULT_OPTIONS.initialDelay,
   o.maxDelay.getD DEFAULT_OPTIONS.maxDelay,
   o.backoffFactor.getD DEFAULT_OPTIONS.backoffFactor,
   o.retryableErrors.getD DEFAULT_OPTIONS.retryableErrors⟩

/-- `opts.retryableErrors.some(r => errorMessage.includes(r))` where
`errorMessage = error?.message || ''` (errors are modelled with their
message always present). -/
def isRetryableErr (opts : RetryOptions) (e : JsError) : Bool :=
  opts.retryableErrors.any (fun r => strIncludes e.message r)

/-- `Math.min(opts.initialDelay * Math.pow(opts.backoffFactor, attempt),
opts.maxDelay)`. -/
def backoffDelay (opts : RetryOptions) (attempt : Nat) : Nat :=
  min (opts.initialDelay * opts.backoffFactor ^ attempt) opts.maxDelay

/-- Observable behaviour of one `retry` run: how many times `fn` was
invoked, the sleeps performed between attempts (in order), and the final
result (`.error e` = `retry` threw `e`). -/
structure RetryTrace (α : Type) where
  calls : Nat
  delays : List Nat
  outcome : Except JsError α
deriving Repr, DecidableEq

/-- The `for (attempt = 0; attempt <= maxRetries; attempt++)` loop of
`retry` in `RetryHelper.ts`, embedded with `fuel = maxRetries + 1 - attempt`
(the number of loop iterations left).  The operation is embedded as
`fn : Nat → Except JsError α` giving the outcome of each 0-based attempt.
The `fuel = 0` base case is the loop exiting with no iteration run, where
the source throws `lastError || new Error('Retry failed')` with
`lastError = null`; inside an iteration, `fuel = 0` after the match
corresponds to `attempt === opts.maxRetries` (break, then throw that
attempt's error). -/
def retryGo (fn : Nat → Except JsError α) (opts : RetryOptions) :
    (attempt fuel : Nat) → RetryTrace α
  | _, 0 => ⟨0, [], .error ⟨"Retry failed".data⟩⟩
  | attempt, fuel + 1 =>
    match fn attempt with
    | .ok v => ⟨1, [], .ok v⟩
    | .error e =>
      if fuel = 0 then ⟨1, [], .error e⟩
      else if isRetryableErr opts e = false then ⟨1, [], .error e⟩
      else
        let rest := retryGo fn opts (attempt + 1) fuel
        ⟨1 + rest.calls, backoffDelay opts attempt :: rest.delays, rest.outcome⟩

/-- `retry` from `RetryHelper.ts` on fully-merged options. -/
def retry (fn : Nat → Except JsError α) (opts : RetryOptions) : RetryTrace α :=
  retryGo fn opts 0 (opts.maxRetries + 1)

/-- `retry(fn, options)` as exported (defaults merged in). -/
def retryWith (fn : Nat → Except JsError α) (options : RetryOptionsPartial) : RetryTrace α :=
  retry fn (mergeRetryOptions options)

theorem retryGo_calls_le (fn : Nat → Except JsError α) (opts : RetryOptions) :
    ∀ fuel attempt, (retryGo fn opts attempt fuel).calls ≤ fuel := by
  intro fuel
  induction fuel with
  | zero => intro attempt; simp [retryGo]
  | succ f ih =>
    intro attempt
    unfold retryGo
    split
    · simp
    · rename_i e heq
      by_cases hf0 : f = 0
      · simp [hf0]
      · rw [if_neg hf0]
        by_cases hr : isRetryableErr opts e = false
        · simp [hr]
        · rw [if_neg hr]
          have := ih (attempt + 1)
          simp only []
          omega

theorem range_map_shift (g : Nat → Nat) (i attempt : Nat) :
    (List.range (i + 1)).map (fun j => g (attempt + j))
      = g attempt :: (List.range i).map (fun j => g (attempt + 1 + j)) := by
  rw [List.range_succ_eq_map, List.map_cons, List.map_map, Nat.add_zero]
  congr 1
  apply List.map_congr_left
  intro j _
  show g (attempt + (j + 1)) = g (attempt + 1 + j)
  congr 1
  omega

theorem retryGo_ok (fn : Nat → Except JsError α) (opts : RetryOptions) (v : α) :
    ∀ (i attempt fuel : Nat), i < fuel →
    (∀ j < i, ∃ e, fn (attempt + j) = .error e ∧ isRetryableErr opts e = true) →
    fn (attempt + i) = .ok v →
    retryGo fn opts attempt fuel
      = ⟨i + 1, (List.range i).map (fun j => backoffDelay opts (attempt + j)), .ok v⟩ := by
  intro i
  induction i with
  | zero =>
    intro attempt fuel hfuel _ hok
    match fuel, hfuel with
    | f + 1, _ =>
      rw [Nat.add_zero] at hok
      unfold retryGo
      split
      · rename_i v' heq
        rw [hok] at heq
        cases heq
        simp
      · rename_i e heq
        rw [hok] at heq
        cases heq
  | succ i ih =>
    intro attempt fuel hfuel hfail hok
    match fuel, hfuel with
    | f + 1, hfuel2 =>
      obtain ⟨e, he, hre⟩ := hfail 0 (by omega)
      rw [Nat.add_zero] at he
      unfold retryGo
      split
      · rename_i v' heq
        rw [he] at heq
        cases heq
      · rename_i e' heq
        rw [he] at heq
        cases heq
        rw [if_neg (by omega), if_neg (by simp [hre])]
        have hrest := ih (attempt + 1) f (by omega)
          (fun j hj => by
            obtain ⟨e', he', hre'⟩ := hfail (j + 1) (by omega)
            exact ⟨e', by rw [show attempt + 1 + j = attempt + (j + 1) by omega]; exact he', hre'⟩)
          (by rw [show attempt + 1 + i = attempt + (i + 1) by omega]; exact hok)
        simp only [hrest, range_map_shift]
        congr 1
        omega

theorem retryGo_exhaust (fn : Nat → Except JsError α) (opts : RetryOptions) (e : JsError) :
    ∀ (fuel attempt : Nat), 1 ≤ fuel →
    (∀ j < fuel, ∃ e', fn (attempt + j) = .error e' ∧ isRetryableErr opts e' = true) →
    fn (attempt + (fuel - 1)) = .error e →
    retryGo fn opts attempt fuel
      = ⟨fuel, (List.range (fuel - 1)).map (fun j => backoffDelay opts (attempt + j)),
          .error e⟩ := by
  intro fuel
  induction fuel with
  | zero => intro attempt h; omega
  | succ f ih =>
    intro attempt _ hfail hlaste
    by_cases hf0 : f = 0
    · subst hf0
      rw [Nat.add_zero] at hlaste
      unfold retryGo
      split
      · rename_i v' heq
        rw [hlaste] at heq
        cases heq
      · rename_i e' heq
        rw [hlaste] at heq
        cases heq
        simp
    · obtain ⟨e0, he0, hre0⟩ := hfail 0 (by omega)
      rw [Nat.add_zero] at he0
      unfold retryGo
      split
      · rename_i v' heq
        rw [he0] at heq
        cases heq
      · rename_i e' heq
        rw [he0] at heq
        cases heq
        rw [if_neg hf0, if_neg (by simp [hre0])]
        have hrest := ih (attempt + 1) (by omega)
          (fun j hj => by
            obtain ⟨e'', he'', hre''⟩ := hfail (j + 1) (by omega)
            exact ⟨e'', by rw [show attempt + 1 + j = attempt + (j + 1) by omega]; exact he'', hre''⟩)
          (by
            rw [show attempt + 1 + (f - 1) = attempt + (f + 1 - 1) by omega]
            exact hlaste)
        simp only [hrest]
        rw [show f + 1 - 1 = (f - 1) + 1 by omega, range_map_shift]
        congr 1
        omega

/-- C2: `retry` invokes the operation at most `maxRetries + 1` times; a
success at attempt `i` (after retryable failures) returns immediately with
`i + 1` invocations and sleeps `min(initialDelay * backoffFactor^j,
maxDelay)` after each failed attempt `j`; if every attempt fails with a
retryable error, the operation is invoked exactly `maxRetries + 1` times
and `retry` throws the final attempt's error itself. -/
theorem C2_retry_backoff_spec (α : Type) :
    (∀ (fn : Nat → Except JsError α) (opts : RetryOptions),
        (retry fn opts).calls ≤ opts.maxRetries + 1)
    ∧ (∀ (fn : Nat → Except JsError α) (opts : RetryOptions) (i : Nat) (v : α),
        i ≤ opts.maxRetries →
        (∀ j < i, ∃ e, fn j = .error e ∧ isRetryableErr opts e = true) →
        fn i = .ok v →
        retry fn opts = ⟨i + 1,
          (List.range i).map (fun j =>
            min (opts.initialDelay * opts.backoffFactor ^ j) opts.maxDelay),
          .ok v⟩)
    ∧ (∀ (fn : Nat → Except JsError α) (opts : RetryOptions) (e : JsError),
        (∀ j, j ≤ opts.maxRetries → ∃ e', fn j = .error e' ∧ isRetryableErr opts e' = true) →
        fn opts.maxRetries = .error e →
        retry fn opts = ⟨opts.maxRetries + 1,
          (List.range opts.maxRetries).map (fun j =>
            min (opts.initialDelay * opts.backoffFactor ^ j) opts.maxDelay),
          .error e⟩) := by
  refine ⟨fun fn opts => retryGo_calls_le fn opts _ 0, ?_, ?_⟩
  · intro fn opts i v hi hfail hok
    have h := retryGo_ok fn opts v i 0 (opts.maxRetries + 1) (by omega)
      (by simpa using hfail) (by simpa using hok)
    simpa [backoffDelay] using h
  · intro fn opts e hfail hlast
    have h := retryGo_exhaust fn opts e (opts.maxRetries + 1) 0 (by omega)
      (fun j hj => by simpa using hfail j (by omega))
      (by simpa using hlast)
    simpa [backoffDelay] using h

/-- A retry policy with `maxRetries = 2` used by the retry witnesses. -/
def retryOptsW : RetryOptions := ⟨2, 1000, 10000, 2, ["ETIMEDOUT".data]⟩

/-- An operation that always fails with a retryable error. -/
def fnAlwaysFail : Nat → Except JsError Nat :=
  fun _ => .error ⟨"connect ETIMEDOUT".data⟩

/-- An operation that fails retryably at attempt 0 and succeeds at attempt 1. -/
def fnOkAt1 : Nat → Except JsError Nat :=
  fun n => if n = 0 then .error ⟨"connect ETIMEDOUT".data⟩ else .ok 7

/-- Witness for `C2_retry_backoff_spec`: under `{maxRetries: 2}`, an
always-retryably-failing operation is called exactly 3 times with backoff
sleeps 1000ms and 2000ms, and the last error is rethrown; an operation
succeeding at the second attempt is called exactly twice. -/
theorem C2_retry_backoff_spec_witness :
    (retry fnAlwaysFail retryOptsW).calls ≤ 3
    ∧ retry fnOkAt1 retryOptsW = ⟨2, [1000], .ok 7⟩
    ∧ retry fnAlwaysFail retryOptsW
        = ⟨3, [1000, 2000], .error ⟨"connect ETIMEDOUT".data⟩⟩ := by
  refine ⟨(C2_retry_backoff_spec Nat).1 fnAlwaysFail retryOptsW, ?_, ?_⟩
  · have h := (C2_retry_backoff_spec Nat).2.1 fnOkAt1 retryOptsW 1 7 (by decide)
      (fun j hj => by
        interval_cases j
        exact ⟨⟨"connect ETIMEDOUT".data⟩, rfl, by decide⟩)
      rfl
    exact h.trans (by decide)
  · have h := (C2_retry_backoff_spec Nat).2.2 fnAlwaysFail retryOptsW
      ⟨"connect ETIMEDOUT".data⟩
      (fun j hj => ⟨⟨"connect ETIMEDOUT".data⟩, rfl, by decide⟩)
      rfl
    exact h.trans (by decide)

/-- C3: when the first attempt fails with an error whose message contains
none of the configured retryable substrings, `retry` rethrows that exact
error, the operation is invoked exactly once, and no backoff sleep
happens. -/
theorem C3_nonretryable_fail_fast (α : Type) :
    ∀ (fn : Nat → Except JsError α) (opts : RetryOptions) (e : JsError),
      fn 0 = .error e → isRetryableErr opts e = false →
      retry fn opts = ⟨1, [], .error e⟩ := by
  intro fn opts e hfn hnr
  unfold retry retryGo
  split
  · rename_i v' heq
    rw [hfn] at heq
    cases heq
  · rename_i e' heq
    rw [hfn] at heq
    cases heq
    by_cases h0 : opts.maxRetries = 0
    · simp [h0]
    · rw [if_neg h0, if_pos hnr]

/-- Witness for `C3_nonretryable_fail_fast`: a validation-style error under
the default policy is not retried. -/
theorem C3_nonretryable_fail_fast_witness :
    retry (fun _ => (.error ⟨"Invalid address".data⟩ : Except JsError Nat)) DEFAULT_OPTIONS
      = ⟨1, [], .error ⟨"Invalid address".data⟩⟩ :=
  C3_nonretryable_fail_fast Nat (fun _ => .error ⟨"Invalid address".data⟩)
    DEFAULT_OPTIONS ⟨"Invalid address".data⟩ rfl (by decide)

/-! ## Bytes, hex, keccak-256 and ABI encoding (the ethers collaborators
used by `DefiBrainClient.ts`: `toUtf8Bytes`, `AbiCoder`, `Interface`). -/

/-- Lowercase hexadecimal digit for `n < 16`. -/
def hexDigitChar (n : Nat) : Char :=
  if n < 10 then digitChar n
  else if n = 10 then 'a' else if n = 11 then 'b' else if n = 12 then 'c'
  else if n = 13 then 'd' else if n = 14 then 'e' else 'f'

/-- Render a byte list as an ethers `DataHexString` (`0x` + 2 lowercase hex
digits per byte). -/
def bytesToHex (b : List Nat) : Str :=
  '0' :: 'x' :: b.flatMap (fun v => [hexDigitChar (v / 16 % 16), hexDigitChar (v % 16)])

/-- Numeric value of one hex digit character. -/
def hexVal (c : Char) : Nat :=
  if 48 ≤ c.toNat ∧ c.toNat ≤ 57 then c.toNat - 48
  else if 97 ≤ c.toNat ∧ c.toNat ≤ 102 then c.toNat - 87
  else if 65 ≤ c.toNat ∧ c.toNat ≤ 70 then c.toNat - 55
  else 0

/-- Decode pairs of hex digits into bytes. -/
def hexPairs : Str → List Nat
  | c1 :: c2 :: rest => (hexVal c1 * 16 + hexVal c2) :: hexPairs rest
  | _ => []

/-- Decode a `0x`-prefixed hex string into bytes. -/
def hexToBytes (s : Str) : List Nat := hexPairs (s.drop 2)

/-- UTF-8 encoding of a string (ethers `toUtf8Bytes`). -/
def utf8Bytes (s : Str) : List Nat :=
  s.flatMap (fun c =>
    let n := c.toNat
    if n < 0x80 then [n]
    else if n < 0x800 then [0xC0 ||| (n >>> 6), 0x80 ||| (n &&& 0x3F)]
    else if n < 0x10000 then
      [0xE0 ||| (n >>> 12), 0x80 ||| ((n >>> 6) &&& 0x3F), 0x80 ||| (n &&& 0x3F)]
    else
      [0xF0 ||| (n >>> 18), 0x80 ||| ((n >>> 12) &&& 0x3F),
       0x80 ||| ((n >>> 6) &&& 0x3F), 0x80 ||| (n &&& 0x3F)])

def mask64 : Nat := 2 ^ 64 - 1

def rotl64 (x n : Nat) : Nat :=
  ((x <<< n) ||| (x >>> (64 - n))) &&& mask64

/-- One step of the degree-8 LFSR `x^8 + x^6 + x^5 + x^4 + 1` generating
the Keccak round-constant bits (FIPS 202, Algorithm 5). -/
def lfsrStep (s : Nat) : Nat :=
  if s &&& 0x80 ≠ 0 then ((s <<< 1) ^^^ 0x71) &&& 0xFF else (s <<< 1) &&& 0xFF

def iterN (f : Nat → Nat) : Nat → Nat → Nat
  | 0, s => s
  | n + 1, s => iterN f n (f s)

/-- Keccak-f[1600] round constants, derived from the LFSR: bit `2^j - 1` of
round `i` is output `7i + j` of the register started at 1. -/
def keccakRC : List Nat :=
  (List.range 24).map (fun i =>
    (List.range 7).foldl (fun acc j =>
      acc ^^^ ((iterN lfsrStep (7 * i + j) 1 &&& 1) <<< (2 ^ j - 1))) 0)

/-- The rho rotation amounts paired with their lane index `x + 5 * y`,
generated by walking `(x,y) ↦ (y, 2x + 3y mod 5)` from `(1,0)` with
rotation `(t+1)(t+2)/2 mod 64` at step `t` (lane 0 stays 0). -/
def rhoPairs : List (Nat × Nat) :=
  ((List.range 24).foldl (fun (st : List (Nat × Nat) × Nat × Nat) t =>
    let acc := st.1
    let x := st.2.1
    let y := st.2.2
    ((x + 5 * y, ((t + 1) * (t + 2) / 2) % 64) :: acc, y, (2 * x + 3 * y) % 5))
    ([], 1, 0)).1

/-- Keccak rho rotation offsets, indexed by `x + 5 * y`. -/
def keccakRho : List Nat :=
  (List.range 25).map (fun i => ((rhoPairs.find? (fun p => p.1 = i)).map Prod.snd).getD 0)

def lane (st : List Nat) (x y : Nat) : Nat := st.getD (x + 5 * y) 0

def keccakTheta (st : List Nat) : List Nat :=
  let C := (List.range 5).map (fun x =>
    lane st x 0 ^^^ lane st x 1 ^^^ lane st x 2 ^^^ lane st x 3 ^^^ lane st x 4)
  let D := (List.range 5).map (fun x =>
    C.getD ((x + 4) % 5) 0 ^^^ rotl64 (C.getD ((x + 1) % 5) 0) 1)
  (List.range 25).map (fun i => st.getD i 0 ^^^ D.getD (i % 5) 0)

def keccakRhoPi (st : List Nat) : List Nat :=
  (List.range 25).map (fun i =>
    let xp := i % 5
    let yp := i / 5
    let x := (xp + 3 * yp) % 5
    let y := xp
    rotl64 (lane st x y) (keccakRho.getD (x + 5 * y) 0))

def keccakChi (st : List Nat) : List Nat :=
  (List.range 25).map (fun i =>
    let x := i % 5
    let y := i / 5
    lane st x y ^^^ ((mask64 ^^^ lane st ((x + 1) % 5) y) &&& lane st ((x + 2) % 5) y))

def keccakIota (st : List Nat) (rc : Nat) : List Nat :=
  match st with
  | [] => []
  | a :: rest => (a ^^^ rc) :: rest

def keccakF (st : List Nat) : List Nat :=
  keccakRC.foldl (fun s rc => keccakIota (keccakChi (keccakRhoPi (keccakTheta s))) rc) st

def blockLane (block : List Nat) (i : Nat) : Nat :=
  (List.range 8).foldl (fun a b => a ||| (block.getD (8 * i + b) 0 <<< (8 * b))) 0

def xorBlock (st block : List Nat) : List Nat :=
  (List.range 25).map (fun i => st.getD i 0 ^^^ blockLane block i)

/-- Keccak `pad10*1` padding to the 136-byte rate (0x01 domain byte). -/
def keccakPad (msg : List Nat) : List Nat :=
  let padlen := 136 - msg.length % 136
  if padlen = 1 then msg ++ [0x81]
  else msg ++ 0x01 :: List.replicate (padlen - 2) 0 ++ [0x80]

def chunks136F : Nat → List Nat → List (List Nat)
  | _, [] => []
  | 0, l => [l]
  | fuel + 1, l => l.take 136 :: chunks136F fuel (l.drop 136)

def chunks136 (l : List Nat) : List (List Nat) := chunks136F l.length l

def keccakAbsorb : List Nat → List (List Nat) → List Nat
  | st, [] => st
  | st, b :: bs => keccakAbsorb (keccakF (xorBlock st b)) bs

/-- Keccak-256 (the Ethereum hash; checked against
`keccak256("") = c5d2…a470`). -/
def keccak256 (msg : List Nat) : List Nat :=
  let final := keccakAbsorb (List.replicate 25 0) (chunks136 (keccakPad msg))
  (List.range 32).map (fun i => (final.getD (i / 8) 0 >>> (8 * (i % 8))) &&& 255)

/-- The 4-byte function selector of a canonical signature (ethers
`Interface`). -/
def functionSelector (sig : Str) : List Nat :=
  (keccak256 (utf8Bytes sig)).take 4

/-- A 32-byte big-endian ABI word. -/
def word32 (n : Nat) : List Nat :=
  (List.range 32).map (fun i => (n >>> (8 * (31 - i))) &&& 255)

/-- Right-pad a byte string with zeros to a multiple of 32 bytes. -/
def padRight32 (b : List Nat) : List Nat :=
  b ++ List.replicate ((32 - b.length % 32) % 32) 0

/-- The in-place (tail) ABI encoding of a dynamic `bytes`/`string` value:
length word followed by the zero-padded data. -/
def abiDynTail (b : List Nat) : List Nat :=
  word32 b.length ++ padRight32 b

/-- `AbiCoder.defaultAbiCoder().encode(["bytes"], [b])` as bytes: a head
offset word (32) followed by the dynamic tail. -/
def abiEncodeBytes (b : List Nat) : List Nat :=
  word32 32 ++ abiDynTail b

/-- `iface.encodeFunctionData("executeAction", [protocol, action,
paramsBytes])` for `executeAction(string calldata, string calldata, bytes
calldata)`: selector, three head offset words, then the three dynamic
tails. -/
def encodeExecuteActionData (protocol action : Str) (paramsBytes : List Nat) : List Nat :=
  let t1 := abiDynTail (utf8Bytes protocol)
  let t2 := abiDynTail (utf8Bytes action)
  let t3 := abiDynTail paramsBytes
  functionSelector "executeAction(string,string,bytes)".data
    ++ word32 96 ++ word32 (96 + t1.length) ++ word32 (96 + t1.length + t2.length)
    ++ t1 ++ t2 ++ t3

/-! ## JSON values and `JSON.stringify` -/

/-- A JSON-like JS runtime value (the `Record<string, any>` parameter
mappings).  `bigint` is the representative non-serialisable value:
`JSON.stringify` throws a `TypeError` on BigInt values. -/
inductive JsValue where
  | null
  | bool (b : Bool)
  | num (n : Int)
  | str (s : Str)
  | arr (xs : List JsValue)
  | obj (fields : List (Str × JsValue))
  | bigint (n : Int)

/-- Escape one character for a JSON string literal (quote, backslash and
the common control characters; enough for the SDK's parameter keys). -/
def jsonEscape (c : Char) : Str :=
  if c = '"' ∨ c = '\\' then ['\\', c]
  else if c.toNat = 10 then '\\' :: ['n']
  else if c.toNat = 13 then '\\' :: ['r']
  else if c.toNat = 9 then '\\' :: ['t']
  else [c]

/-- A JSON string literal. -/
def jsonQuote (s : Str) : Str :=
  '"' :: s.flatMap jsonEscape ++ ['"']

mutual
/-- `JSON.stringify` (on the modelled value universe); `none` = throws. -/
def jsonStringify : JsValue → Option Str
  | .null => some "null".data
  | .bool true => some "true".data
  | .bool false => some "false".data
  | .num n => some (intToDecStr n)
  | .str s => some (jsonQuote s)
  | .bigint _ => none
  | .arr xs =>
    match jsonStringifyList xs with
    | none => none
    | some parts => some ('[' :: List.intercalate [','] parts ++ [']'])
  | .obj fs =>
    match jsonStringifyFields fs with
    | none => none
    | some parts => some (Char.ofNat 123 :: List.intercalate [','] parts ++ [Char.ofNat 125])

def jsonStringifyList : List JsValue → Option (List Str)
  | [] => some []
  | x :: xs =>
    match jsonStringify x, jsonStringifyList xs with
    | some s, some r => some (s :: r)
    | _, _ => none

def jsonStringifyFields : List (Str × JsValue) → Option (List Str)
  | [] => some []
  | (k, v) :: xs =>
    match jsonStringify v, jsonStringifyFields xs with
    | some s, some r => some ((jsonQuote k ++ ':' :: s) :: r)
    | _, _ => none
end

/-! ## config.ts and DefiBrainClient.ts -/

/-- JS string-truthiness of an optional string: `undefined` and `""` are
falsy. -/
def truthyStr : Option Str → Bool
  | none => false
  | some s => !s.isEmpty

/-- `ROUTER_ADDRESSES` from `config.ts` (chain 1, 42161 and 137 map to the
empty string "to be set after deployment"). -/
def ROUTER_ADDRESSES : List (Int × Str) :=
  [(1, []),
   (11155111, "0xFa907c9ca64B72420f04AFFa4e70619991C6c6e2".data),
   (42161, []),
   (137, [])]

/-- `getDefaultRouterAddress` from `config.ts`: record lookup, `undefined`
(`none`) if the chain id is not a key. -/
def getDefaultRouterAddress (chainId : Int) : Option Str :=
  (ROUTER_ADDRESSES.find? (fun p => p.1 == chainId)).map Prod.snd

inductive ExecutionMode where
  | direct
  | managed
deriving DecidableEq, Repr

/-- `DefiBrainConfig` (constructor argument). -/
structure DefiBrainConfig where
  apiKey : Str
  apiUrl : Option Str := none
  chainId : Option Int := none
  retryOptions : Option RetryOptionsPartial := none
  mode : Option ExecutionMode := none
  routerAddress : Option Str := none

/-- The private state of a `DefiBrainClient` instance. -/
structure DefiBrainClient where
  apiKey : Str
  apiUrl : Str
  chainId : Int
  retryOptions : RetryOptionsPartial
  mode : ExecutionMode
  routerAddress : Option Str
deriving DecidableEq

/-- `config.chainId || 1` (`0` is falsy). -/
def jsOrInt (a : Option Int) (dflt : Int) : Int :=
  match a with
  | some v => if v = 0 then dflt else v
  | none => dflt

/-- `a || dflt` for strings (`""` is falsy). -/
def jsOrStr (a : Option Str) (dflt : Str) : Str :=
  match a with
  | some s => if s.isEmpty then dflt else s
  | none => dflt

/-- `config.routerAddress || getDefaultRouterAddress(this.chainId)`. -/
def jsOrOptStr (a b : Option Str) : Option Str :=
  if truthyStr a then a else b

/-- The constructor's managed-mode error message. -/
def managedCtorErr (chainId : Int) : Str :=
  "routerAddress is required when mode is 'managed'. No default router address found for chainId ".data
    ++ intToDecStr chainId ++ ". Please provide routerAddress in config.".data

/-- The `DefiBrainClient` constructor: defaults are applied, the router
address falls back to the per-chain default, and managed mode without a
truthy router address throws. -/
def mkDefiBrainClient (config : DefiBrainConfig) : Except JsError DefiBrainClient :=
  if config.mode.getD .direct = .managed
      ∧ truthyStr (jsOrOptStr config.routerAddress
          (getDefaultRouterAddress (jsOrInt config.chainId 1))) = false then
    .error ⟨managedCtorErr (jsOrInt config.chainId 1)⟩
  else
    .ok ⟨config.apiKey,
      jsOrStr config.apiUrl "https://backend-production-a565a.up.railway.app/v1".data,
      jsOrInt config.chainId 1,
      config.retryOptions.getD {},
      config.mode.getD .direct,
      jsOrOptStr config.routerAddress (getDefaultRouterAddress (jsOrInt config.chainId 1))⟩

/-- `setChainId` from `DefiBrainClient.ts`: a bare assignment, no
validation. -/
def setChainId (st : DefiBrainClient) (chainId : Int) : DefiBrainClient :=
  { st with chainId := chainId }

/-- `setMode` from `DefiBrainClient.ts`: rejects managed mode without a
truthy router argument, then stores the mode and exactly the router
argument (per-chain defaults are not consulted). -/
def setMode (st : DefiBrainClient) (mode : ExecutionMode) (routerAddress : Option Str) :
    Except JsError DefiBrainClient :=
  if mode = .managed ∧ truthyStr routerAddress = false then
    .error ⟨"routerAddress is required when mode is 'managed'".data⟩
  else
    .ok { st with mode := mode, routerAddress := routerAddress }

/-- A call to one of the two configuration setters. -/
inductive ClientOp where
  | setChainId (chainId : Int)
  | setMode (mode : ExecutionMode) (routerAddress : Option Str)

def applyOp (st : DefiBrainClient) : ClientOp → Except JsError DefiBrainClient
  | .setChainId c => .ok (setChainId st c)
  | .setMode m r => setMode st m r

def applyOps (st : DefiBrainClient) : List ClientOp → Except JsError DefiBrainClient
  | [] => .ok st
  | op :: ops =>
    match applyOp st op with
    | .error e => .error e
    | .ok st' => applyOps st' ops

/-- An unsigned transaction as returned by `buildManagedTransaction`. -/
structure UnsignedTx where
  «to» : Str
  data : Str
  value : Option Str
deriving DecidableEq, Repr

/-- `encodeParams` from `DefiBrainClient.ts`: JSON-serialize the params,
UTF-8 encode, wrap once as an ABI `bytes` value; on any failure return
`"0x"`. -/
def encodeParams (params : JsValue) : Str :=
  match jsonStringify params with
  | none => "0x".data
  | some js => bytesToHex (abiEncodeBytes (utf8Bytes js))

/-- `buildManagedTransaction` from `DefiBrainClient.ts`: requires a truthy
router address, then targets the router with the ABI-encoded
`executeAction(protocol, action, paramsBytes)` call and value `"0"`. -/
def buildManagedTransaction (st : DefiBrainClient) (protocol action : Str)
    (params : JsValue) : Except JsError UnsignedTx :=
  if truthyStr st.routerAddress = false then
    .error ⟨"routerAddress is required for managed mode".data⟩
  else
    let paramsBytes := encodeParams params
    let data := bytesToHex (encodeExecuteActionData protocol action (hexToBytes paramsBytes))
    .ok ⟨st.routerAddress.getD [], data, some "0".data⟩

/-- One action of an `ExecuteBatchRequest`. -/
structure BatchAction where
  protocol : Str
  action : Str
  params : JsValue

/-- The `/execute-batch` HTTP POST issued by `executeBatch` (endpoint plus
the JSON body fields `{...request, chainId, mode, routerAddress}`). -/
structure BatchHttpRequest where
  endpoint : Str
  actions : List BatchAction
  chainId : Int
  mode : ExecutionMode
  routerAddress : Option Str

/-- `ExecuteBatchResponse` (fields the SDK returns unchanged). -/
structure ExecuteBatchResponse where
  transactionHash : Str
  status : Str
  transaction : Option UnsignedTx
  results : Option (List (Str × Str × Bool))

/-- Outcome of the `fetch` call as seen by `executeBatch`: a 2xx response
with a parsed body, or a non-2xx response with an optional backend error
message. -/
inductive BatchFetchOutcome where
  | ok (resp : ExecuteBatchResponse)
  | httpError (errMsg : Option Str)

/-- `executeBatch` from `DefiBrainClient.ts`, returning the result together
with the list of HTTP requests issued (empty = no network call). -/
def executeBatch (st : DefiBrainClient) (req : List BatchAction)
    (backend : BatchFetchOutcome) :
    Except JsError ExecuteBatchResponse × List BatchHttpRequest :=
  if st.mode ≠ .managed ∨ truthyStr st.routerAddress = false then
    (.error ⟨"Batch execution requires managed mode with routerAddress".data⟩, [])
  else
    let request : BatchHttpRequest :=
      ⟨"/execute-batch".data, req, st.chainId, st.mode, st.routerAddress⟩
    match backend with
    | .ok resp => (.ok resp, [request])
    | .httpError m => (.error ⟨m.getD "Failed to execute batch".data⟩, [request])

/-! ## C4: best-effort parameter encoding -/

theorem bytesToHex_ne_0x {b : List Nat} (hb : b ≠ []) : bytesToHex b ≠ "0x".data := by
  match b, hb with
  | v :: t, _ =>
    unfold bytesToHex
    intro h
    simp [List.flatMap_cons] at h

theorem bytesToHex_ne_nil (b : List Nat) : bytesToHex b ≠ [] := by
  unfold bytesToHex
  simp

theorem keccak256_length (msg : List Nat) : (keccak256 msg).length = 32 := by
  unfold keccak256
  simp

theorem functionSelector_length (sig : Str) : (functionSelector sig).length = 4 := by
  unfold functionSelector
  simp [keccak256_length]

set_option maxRecDepth 100000 in
/-- The selector of `executeAction(string,string,bytes)` (first 4 bytes of
its keccak-256), fixing the concrete call-data prefix of every managed
transaction. -/
theorem executeAction_selector :
    functionSelector "executeAction(string,string,bytes)".data
      = [0xc2, 0x2c, 0xc2, 0x7b] := by decide

theorem encodeExecuteActionData_ne_nil (p a : Str) (pb : List Nat) :
    encodeExecuteActionData p a pb ≠ [] := by
  unfold encodeExecuteActionData
  intro h
  have hlen := congrArg List.length h
  simp [List.length_append, functionSelector_length] at hlen

/-- A managed-mode client (Sepolia router) used by the C4 theorems. -/
def clientC4 : DefiBrainClient :=
  ⟨"test-key".data, "https://test.api.com/v1".data, 11155111, {}, .managed,
    some "0xFa907c9ca64B72420f04AFFa4e70619991C6c6e2".data⟩

/-- An action-parameter mapping whose JSON serialization throws
(`JSON.stringify` raises `TypeError` on BigInt values). -/
def badParamsC4 : JsValue := .obj [("amount".data, .bigint 1000000)]

theorem jsonStringify_badParamsC4 : jsonStringify badParamsC4 = none := by
  simp [badParamsC4, jsonStringify, jsonStringifyFields]

/-- When parameter encoding fails, `buildManagedTransaction` raises no
error, `encodeParams` degenerates to `"0x"`, and the transaction's call
data is the full `executeAction(protocol, action, 0x)` router call, which
is not the empty byte string. -/
theorem buildManaged_json_failure (st : DefiBrainClient) (protocol action : Str)
    (params : JsValue) (hrouter : truthyStr st.routerAddress = true)
    (hfail : jsonStringify params = none) :
    encodeParams params = "0x".data
    ∧ buildManagedTransaction st protocol action params
        = .ok ⟨st.routerAddress.getD [],
            bytesToHex (encodeExecuteActionData protocol action []), some "0".data⟩
    ∧ bytesToHex (encodeExecuteActionData protocol action []) ≠ "0x".data := by
  have henc : encodeParams params = "0x".data := by
    unfold encodeParams
    rw [hfail]
  refine ⟨henc, ?_, bytesToHex_ne_0x (encodeExecuteActionData_ne_nil _ _ _)⟩
  unfold buildManagedTransaction
  rw [if_neg (by rw [hrouter]; simp)]
  simp only [henc]
  rfl

/-- C4 (counterexample): for a managed client and a parameter mapping whose
JSON serialization throws, building the managed transaction succeeds but
its call data is NOT an empty byte string (neither `"0x"` nor `""`): it is
the router `executeAction` call with empty `bytes` params. -/
theorem C4_counterexample :
    (buildManagedTransaction clientC4 "aave".data "supply".data badParamsC4).isOk = true
    ∧ (buildManagedTransaction clientC4 "aave".data "supply".data badParamsC4).map
        UnsignedTx.data ≠ .ok "0x".data
    ∧ (buildManagedTransaction clientC4 "aave".data "supply".data badParamsC4).map
        UnsignedTx.data ≠ .ok [] := by
  obtain ⟨henc, hbuild, hne⟩ := buildManaged_json_failure clientC4 "aave".data "supply".data
    badParamsC4 (by decide) jsonStringify_badParamsC4
  rw [hbuild]
  refine ⟨rfl, ?_, ?_⟩
  · intro hc
    exact hne (Except.ok.inj hc)
  · intro hc
    exact bytesToHex_ne_nil _ (Except.ok.inj hc)

/-- C4 (amended): in managed mode, for every action-parameter mapping whose
JSON encoding fails, building the managed transaction raises no error; the
encoded params degenerate to the empty byte string `"0x"`, and the
transaction's call data is the `executeAction(protocol, action, 0x)`
router call (non-empty), targeting the router with value `"0"`. -/
theorem C4_encode_failure_degrades (st : DefiBrainClient) (protocol action : Str)
    (params : JsValue) (hrouter : truthyStr st.routerAddress = true)
    (hfail : jsonStringify params = none) :
    encodeParams params = "0x".data
    ∧ buildManagedTransaction st protocol action params
        = .ok ⟨st.routerAddress.getD [],
            bytesToHex (encodeExecuteActionData protocol action []), some "0".data⟩
    ∧ bytesToHex (encodeExecuteActionData protocol action []) ≠ "0x".data :=
  buildManaged_json_failure st protocol action params hrouter hfail

/-- Witness for `C4_encode_failure_degrades` at `clientC4`/`badParamsC4`. -/
theorem C4_encode_failure_degrades_witness :
    encodeParams badParamsC4 = "0x".data
    ∧ buildManagedTransaction clientC4 "aave".data "supply".data badParamsC4
        = .ok ⟨clientC4.routerAddress.getD [],
            bytesToHex (encodeExecuteActionData "aave".data "supply".data []), some "0".data⟩
    ∧ bytesToHex (encodeExecuteActionData "aave".data "supply".data []) ≠ "0x".data :=
  C4_encode_failure_degrades clientC4 "aave".data "supply".data badParamsC4
    (by decide) jsonStringify_badParamsC4

/-! ## C5/C6: configuration invariant -/

/-- The configuration invariant asserted by the spec: positive chain id,
and a truthy router address whenever the mode is managed. -/
def ConfigInvariant (st : DefiBrainClient) : Prop :=
  0 < st.chainId ∧ (st.mode = .managed → truthyStr st.routerAddress = true)

instance (st : DefiBrainClient) : Decidable (ConfigInvariant st) := by
  unfold ConfigInvariant
  infer_instance

/-- C5 (counterexample): the state reached from a default (non-throwing)
construction by the non-throwing call `setChainId(0)` has chain id `0`,
violating the claimed invariant: `setChainId` performs no validation. -/
theorem C5_counterexample :
    ((mkDefiBrainClient { apiKey := "test-key".data }).bind
        (fun st => applyOps st [ClientOp.setChainId 0])).map
      (fun st => (st.chainId, decide (ConfigInvariant st))) = .ok (0, false) := by
  decide

theorem mk_router_invariant {cfg : DefiBrainConfig} {st : DefiBrainClient}
    (h : mkDefiBrainClient cfg = .ok st) :
    st.mode = .managed → truthyStr st.routerAddress = true := by
  unfold mkDefiBrainClient at h
  split at h
  · cases h
  · rename_i hcond
    have hst := (Except.ok.inj h).symm
    subst hst
    intro hm
    simp only [not_and] at hcond
    have h2 := hcond hm
    simp only [Bool.not_eq_false] at h2
    exact h2

theorem applyOp_router_invariant {st st' : DefiBrainClient} {op : ClientOp}
    (h : applyOp st op = .ok st')
    (hinv : st.mode = .managed → truthyStr st.routerAddress = true) :
    st'.mode = .managed → truthyStr st'.routerAddress = true := by
  cases op with
  | setChainId c =>
    replace h : Except.ok (setChainId st c) = .ok st' := h
    have hst : st' = setChainId st c := (Except.ok.inj h).symm
    subst hst
    simpa [setChainId] using hinv
  | setMode m r =>
    replace h : setMode st m r = .ok st' := h
    unfold setMode at h
    split at h
    · cases h
    · rename_i hcond
      have hst : st' = { st with mode := m, routerAddress := r } := (Except.ok.inj h).symm
      subst hst
      intro hm
      simp only [not_and] at hcond
      have h2 := hcond hm
      simp only [Bool.not_eq_false] at h2
      exact h2

theorem applyOps_router_invariant {ops : List ClientOp} :
    ∀ {st st' : DefiBrainClient}, applyOps st ops = .ok st' →
    (st.mode = .managed → truthyStr st.routerAddress = true) →
    st'.mode = .managed → truthyStr st'.routerAddress = true := by
  induction ops with
  | nil =>
    intro st st' h hinv
    cases h
    exact hinv
  | cons op ops ih =>
    intro st st' h hinv
    unfold applyOps at h
    split at h
    · cases h
    · rename_i st1 hop
      exact ih h (applyOp_router_invariant hop hinv)

/-- C5 (amended): every client state reachable by a non-throwing
constructor call followed by any sequence of non-throwing `setChainId` and
`setMode` calls satisfies the managed-mode half of the configuration
invariant: whenever the mode is managed, a truthy router address is
configured.  (The chain-id-positivity half fails: neither the constructor
nor `setChainId` validates the chain id — see the counterexample.) -/
theorem C5_router_invariant (cfg : DefiBrainConfig) (ops : List ClientOp)
    (st0 st : DefiBrainClient) (h0 : mkDefiBrainClient cfg = .ok st0)
    (h : applyOps st0 ops = .ok st) :
    st.mode = .managed → truthyStr st.routerAddress = true :=
  applyOps_router_invariant h (mk_router_invariant h0)

/-- The state constructed from `{apiKey: "test-key"}` (direct mode, chain 1,
the chain-1 placeholder default router `""`). -/
def clientW5start : DefiBrainClient :=
  ⟨"test-key".data, "https://backend-production-a565a.up.railway.app/v1".data, 1, {},
    .direct, some []⟩

/-- The state after `setMode("direct")` then `setMode("managed", router)`. -/
def clientW5final : DefiBrainClient :=
  ⟨"test-key".data, "https://backend-production-a565a.up.railway.app/v1".data, 1, {},
    .managed, some "0xFa907c9ca64B72420f04AFFa4e70619991C6c6e2".data⟩

/-- Witness for `C5_router_invariant`: construct a direct-mode client, then
`setMode("direct")` and `setMode("managed", router)`. -/
theorem C5_router_invariant_witness :
    truthyStr clientW5final.routerAddress = true :=
  C5_router_invariant { apiKey := "test-key".data }
    [ClientOp.setMode .direct none,
     ClientOp.setMode .managed (some "0xFa907c9ca64B72420f04AFFa4e70619991C6c6e2".data)]
    clientW5start clientW5final (by decide) (by decide) rfl

/-- C6: constructing a client with managed mode, no truthy `routerAddress`
in the config, on a chain whose default router address is not truthy
(absent or the empty placeholder), throws at construction time with the
documented message. -/
theorem C6_managed_no_router_throws (cfg : DefiBrainConfig)
    (hm : cfg.mode = some .managed)
    (hr : truthyStr cfg.routerAddress = false)
    (hd : truthyStr (getDefaultRouterAddress (jsOrInt cfg.chainId 1)) = false) :
    mkDefiBrainClient cfg = .error ⟨managedCtorErr (jsOrInt cfg.chainId 1)⟩ := by
  unfold mkDefiBrainClient
  rw [if_pos]
  constructor
  · rw [hm]
    rfl
  · unfold jsOrOptStr
    rw [if_neg (by rw [hr]; simp)]
    exact hd

/-- Witness for `C6_managed_no_router_throws`: `{mode: "managed", chainId:
5}` (no default router for chain 5). -/
theorem C6_managed_no_router_throws_witness :
    mkDefiBrainClient ⟨"test-key".data, none, some 5, none, some .managed, none⟩
      = .error ⟨managedCtorErr (jsOrInt (some 5) 1)⟩ :=
  C6_managed_no_router_throws
    ⟨"test-key".data, none, some 5, none, some .managed, none⟩
    rfl (by decide) (by decide)

/-! ## C7: executeBatch precondition -/

/-- C7: calling `executeBatch` while the mode is `"direct"` (or while no
truthy router address is configured) returns the local precondition error
and issues no HTTP request. -/
theorem C7_executeBatch_precondition (st : DefiBrainClient) (req : List BatchAction)
    (backend : BatchFetchOutcome)
    (h : st.mode = .direct ∨ truthyStr st.routerAddress = false) :
    executeBatch st req backend
      = (.error ⟨"Batch execution requires managed mode with routerAddress".data⟩, []) := by
  unfold executeBatch
  rw [if_pos]
  rcases h with h | h
  · left
    rw [h]
    simp
  · right
    exact h

/-- Witness for `C7_executeBatch_precondition` on a freshly constructed
direct-mode client. -/
theorem C7_executeBatch_precondition_witness :
    executeBatch clientW5start [] (.httpError none)
      = (.error ⟨"Batch execution requires managed mode with routerAddress".data⟩, []) :=
  C7_executeBatch_precondition clientW5start [] (.httpError none) (Or.inl rfl)

/-! ## C9: setMode stores exactly its argument -/

/-- C9: `setMode` stores exactly its `routerAddress` argument, never
consulting per-chain defaults: any successful `setMode(m, r)` leaves mode
`m` and router `r`; `setMode("direct")` with no router argument clears the
stored router; `setMode("managed")` without a truthy router throws
regardless of the chain; while the constructor, by contrast, falls back to
the per-chain default router. -/
theorem C9_setMode_stores_argument :
    (∀ (st : DefiBrainClient) (m : ExecutionMode) (r : Option Str) (st' : DefiBrainClient),
        setMode st m r = .ok st' → st'.mode = m ∧ st'.routerAddress = r)
    ∧ (∀ st : DefiBrainClient,
        setMode st .direct none
          = .ok { st with mode := .direct, routerAddress := none })
    ∧ (∀ st : DefiBrainClient,
        setMode st .managed none
          = .error ⟨"routerAddress is required when mode is 'managed'".data⟩)
    ∧ (∀ cfg : DefiBrainConfig, cfg.mode = some .managed →
        truthyStr cfg.routerAddress = false →
        truthyStr (getDefaultRouterAddress (jsOrInt cfg.chainId 1)) = true →
        ∃ st, mkDefiBrainClient cfg = .ok st
          ∧ st.routerAddress = getDefaultRouterAddress (jsOrInt cfg.chainId 1)) := by
  refine ⟨?_, ?_, ?_, ?_⟩
  · intro st m r st' h
    unfold setMode at h
    split at h
    · cases h
    · have hst : st' = { st with mode := m, routerAddress := r } := (Except.ok.inj h).symm
      subst hst
      exact ⟨rfl, rfl⟩
  · intro st
    unfold setMode
    rw [if_neg (by simp)]
  · intro st
    unfold setMode
    rw [if_pos ⟨rfl, rfl⟩]
  · intro cfg hm hr hd
    have hro : jsOrOptStr cfg.routerAddress (getDefaultRouterAddress (jsOrInt cfg.chainId 1))
        = getDefaultRouterAddress (jsOrInt cfg.chainId 1) := by
      unfold jsOrOptStr
      rw [if_neg (by rw [hr]; simp)]
    refine ⟨⟨cfg.apiKey,
        jsOrStr cfg.apiUrl "https://backend-production-a565a.up.railway.app/v1".data,
        jsOrInt cfg.chainId 1, cfg.retryOptions.getD {}, cfg.mode.getD .direct,
        jsOrOptStr cfg.routerAddress (getDefaultRouterAddress (jsOrInt cfg.chainId 1))⟩,
      ?_, ?_⟩
    · unfold mkDefiBrainClient
      rw [if_neg (by
        rw [hro, hd]
        simp)]
    · exact hro

/-- A direct-mode client on Sepolia (a chain whose default router address
is configured). -/
def clientSepolia : DefiBrainClient :=
  ⟨"test-key".data, "https://test.api.com/v1".data, 11155111, {}, .direct,
    some "0xFa907c9ca64B72420f04AFFa4e70619991C6c6e2".data⟩

/-- Witness for `C9_setMode_stores_argument`: on Sepolia (which has a
default router) `setMode("managed")` without a router still throws, while
the constructor falls back to the Sepolia default. -/
theorem C9_setMode_stores_argument_witness :
    (setMode clientSepolia .managed none
        = .error ⟨"routerAddress is required when mode is 'managed'".data⟩)
    ∧ (∃ st, mkDefiBrainClient ⟨"test-key".data, none, some 11155111, none, some .managed, none⟩
          = .ok st
        ∧ st.routerAddress = getDefaultRouterAddress (jsOrInt (some 11155111) 1)) :=
  ⟨C9_setMode_stores_argument.2.2.1 clientSepolia,
   C9_setMode_stores_argument.2.2.2
     ⟨"test-key".data, none, some 11155111, none, some .managed, none⟩
     rfl (by decide) (by decide)⟩

/-! ## Swap helpers (UniswapHelper / OneInchHelper) -/

/-- `validateAddress` from `ValidationHelper.ts` (throwing form). -/
def validateAddress (address name : Str) : Except JsError Unit :=
  if isValidAddress address then .ok ()
  else .error ⟨name ++ " is not a valid Ethereum address: ".data ++ address⟩

/-- `validateAmount` from `ValidationHelper.ts` (throwing form). -/
def validateAmount (amount name : Str) : Except JsError Unit :=
  if isValidAmount amount then .ok ()
  else .error ⟨name ++ " must be a positive number: ".data ++ amount⟩

structure FindSwapRoute where
  fromToken : Str
  toToken : Str
  amount : Str
  estimatedAmount : Str
  protocols : List Str
deriving DecidableEq

structure FindSwapResponse where
  protocol : Str
  route : FindSwapRoute
  estimatedGas : Str
  transaction : Option UnsignedTx
deriving DecidableEq

/-- The protocol-mismatch error of `UniswapHelper.findOptimalSwap`. -/
def uniswapMismatchMsg (actual : Str) : Str :=
  "Best route is not Uniswap (got ".data ++ actual
    ++ "). This helper is intended for swaps where Uniswap is the selected protocol.".data

/-- The protocol-mismatch error of `OneInchHelper.findOptimalSwap`. -/
def oneInchMismatchMsg (actual : Str) : Str :=
  "Best route is not 1inch (got ".data ++ actual
    ++ "). This helper is intended for swaps where 1inch is the selected protocol.".data

/-- `UniswapHelper.findOptimalSwap`: validate inputs, query the backend
(whose successful response is the `backendResult` parameter; the HTTP layer
is abstracted away), then assert the selected protocol is `"uniswap"`. -/
def uniswapFindOptimalSwap (tokenIn tokenOut amount : Str)
    (backendResult : FindSwapResponse) : Except JsError FindSwapResponse :=
  match validateAddress tokenIn "TokenIn".data with
  | .error e => .error e
  | .ok _ =>
    match validateAddress tokenOut "TokenOut".data with
    | .error e => .error e
    | .ok _ =>
      match validateAmount amount "Amount".data with
      | .error e => .error e
      | .ok _ =>
        if backendResult.protocol ≠ "uniswap".data then
          .error ⟨uniswapMismatchMsg backendResult.protocol⟩
        else .ok backendResult

/-- `OneInchHelper.findOptimalSwap`: same shape with protocol identity
`"1inch"`. -/
def oneInchFindOptimalSwap (tokenIn tokenOut amount : Str)
    (backendResult : FindSwapResponse) : Except JsError FindSwapResponse :=
  match validateAddress tokenIn "TokenIn".data with
  | .error e => .error e
  | .ok _ =>
    match validateAddress tokenOut "TokenOut".data with
    | .error e => .error e
    | .ok _ =>
      match validateAmount amount "Amount".data with
      | .error e => .error e
      | .ok _ =>
        if backendResult.protocol ≠ "1inch".data then
          .error ⟨oneInchMismatchMsg backendResult.protocol⟩
        else .ok backendResult

theorem strIncludes_mid (a sub b : Str) : strIncludes (a ++ (sub ++ b)) sub = true := by
  unfold strIncludes
  rw [List.any_eq_true]
  refine ⟨a.length, ?_, ?_⟩
  · rw [List.mem_range]
    simp [List.length_append]
    omega
  · rw [List.drop_left, List.take_left]
    exact beq_self_eq_true sub

theorem uniswapFindOptimalSwap_reduce (tokenIn tokenOut amount : Str)
    (resp : FindSwapResponse) (hin : isValidAddress tokenIn = true)
    (hout : isValidAddress tokenOut = true) (hamt : isValidAmount amount = true) :
    uniswapFindOptimalSwap tokenIn tokenOut amount resp
      = if resp.protocol ≠ "uniswap".data then .error ⟨uniswapMismatchMsg resp.protocol⟩
        else .ok resp := by
  unfold uniswapFindOptimalSwap
  split
  · rename_i e heq
    unfold validateAddress at heq
    rw [if_pos hin] at heq
    cases heq
  · split
    · rename_i e heq
      unfold validateAddress at heq
      rw [if_pos hout] at heq
      cases heq
    · split
      · rename_i e heq
        unfold validateAmount at heq
        rw [if_pos hamt] at heq
        cases heq
      · rfl

theorem oneInchFindOptimalSwap_reduce (tokenIn tokenOut amount : Str)
    (resp : FindSwapResponse) (hin : isValidAddress tokenIn = true)
    (hout : isValidAddress tokenOut = true) (hamt : isValidAmount amount = true) :
    oneInchFindOptimalSwap tokenIn tokenOut amount resp
      = if resp.protocol ≠ "1inch".data then .error ⟨oneInchMismatchMsg resp.protocol⟩
        else .ok resp := by
  unfold oneInchFindOptimalSwap
  split
  · rename_i e heq
    unfold validateAddress at heq
    rw [if_pos hin] at heq
    cases heq
  · split
    · rename_i e heq
      unfold validateAddress at heq
      rw [if_pos hout] at heq
      cases heq
    · split
      · rename_i e heq
        unfold validateAmount at heq
        rw [if_pos hamt] at heq
        cases heq
      · rfl

/-- C8: for valid inputs, a protocol-specific swap helper whose backend
response names a different protocol than its own identity throws an error
naming both the expected and the actual protocol, and a route is returned
only when the backend protocol matches the helper's identity. -/
theorem C8_protocol_mismatch_guard (tokenIn tokenOut amount : Str)
    (resp : FindSwapResponse) (hin : isValidAddress tokenIn = true)
    (hout : isValidAddress tokenOut = true) (hamt : isValidAmount amount = true) :
    (resp.protocol ≠ "uniswap".data →
      uniswapFindOptimalSwap tokenIn tokenOut amount resp
          = .error ⟨uniswapMismatchMsg resp.protocol⟩
        ∧ strIncludes (uniswapMismatchMsg resp.protocol) "Uniswap".data = true
        ∧ strIncludes (uniswapMismatchMsg resp.protocol) resp.protocol = true)
    ∧ (resp.protocol ≠ "1inch".data →
      oneInchFindOptimalSwap tokenIn tokenOut amount resp
          = .error ⟨oneInchMismatchMsg resp.protocol⟩
        ∧ strIncludes (oneInchMismatchMsg resp.protocol) "1inch".data = true
        ∧ strIncludes (oneInchMismatchMsg resp.protocol) resp.protocol = true)
    ∧ (∀ r, uniswapFindOptimalSwap tokenIn tokenOut amount resp = .ok r →
        r = resp ∧ resp.protocol = "uniswap".data)
    ∧ (∀ r, oneInchFindOptimalSwap tokenIn tokenOut amount resp = .ok r →
        r = resp ∧ resp.protocol = "1inch".data) := by
  refine ⟨?_, ?_, ?_, ?_⟩
  · intro hne
    rw [uniswapFindOptimalSwap_reduce _ _ _ _ hin hout hamt, if_pos hne]
    refine ⟨rfl, ?_, ?_⟩
    · rw [show uniswapMismatchMsg resp.protocol
          = "Best route is not ".data ++ ("Uniswap".data ++ (" (got ".data ++ resp.protocol
            ++ "). This helper is intended for swaps where Uniswap is the selected protocol.".data))
          from by
            unfold uniswapMismatchMsg
            rw [show "Best route is not Uniswap (got ".data
                = "Best route is not ".data ++ ("Uniswap".data ++ " (got ".data) from by decide]
            simp [List.append_assoc]]
      exact strIncludes_mid _ _ _
    · rw [show uniswapMismatchMsg resp.protocol
          = "Best route is not Uniswap (got ".data ++ (resp.protocol
            ++ "). This helper is intended for swaps where Uniswap is the selected protocol.".data)
          from by
            unfold uniswapMismatchMsg
            simp [List.append_assoc]]
      exact strIncludes_mid _ _ _
  · intro hne
    rw [oneInchFindOptimalSwap_reduce _ _ _ _ hin hout hamt, if_pos hne]
    refine ⟨rfl, ?_, ?_⟩
    · rw [show oneInchMismatchMsg resp.protocol
          = "Best route is not ".data ++ ("1inch".data ++ (" (got ".data ++ resp.protocol
            ++ "). This helper is intended for swaps where 1inch is the selected protocol.".data))
          from by
            unfold oneInchMismatchMsg
            rw [show "Best route is not 1inch (got ".data
                = "Best route is not ".data ++ ("1inch".data ++ " (got ".data) from by decide]
            simp [List.append_assoc]]
      exact strIncludes_mid _ _ _
    · rw [show oneInchMismatchMsg resp.protocol
          = "Best route is not 1inch (got ".data ++ (resp.protocol
            ++ "). This helper is intended for swaps where 1inch is the selected protocol.".data)
          from by
            unfold oneInchMismatchMsg
            simp [List.append_assoc]]
      exact strIncludes_mid _ _ _
  · intro r hok
    rw [uniswapFindOptimalSwap_reduce _ _ _ _ hin hout hamt] at hok
    by_cases hp : resp.protocol = "uniswap".data
    · rw [if_neg (by simpa using hp)] at hok
      exact ⟨(Except.ok.inj hok).symm, hp⟩
    · rw [if_pos hp] at hok
      cases hok
  · intro r hok
    rw [oneInchFindOptimalSwap_reduce _ _ _ _ hin hout hamt] at hok
    by_cases hp : resp.protocol = "1inch".data
    · rw [if_neg (by simpa using hp)] at hok
      exact ⟨(Except.ok.inj hok).symm, hp⟩
    · rw [if_pos hp] at hok
      cases hok

/-- A backend response whose selected protocol is `"aave"`. -/
def respC8 : FindSwapResponse :=
  ⟨"aave".data,
    ⟨"0xA0b86991c6218b36c1d19D4a2e9Eb0cE3606eB48".data,
     "0x6B175474E89094C44Da98b954EedeAC495271d0F".data,
     "1000000".data, "999000".data, ["aave".data]⟩,
    "21000".data, none⟩

/-- Witness for `C8_protocol_mismatch_guard`: an `"aave"` route offered to
the Uniswap helper is rejected with a message naming both protocols. -/
theorem C8_protocol_mismatch_guard_witness :
    uniswapFindOptimalSwap "0xA0b86991c6218b36c1d19D4a2e9Eb0cE3606eB48".data
        "0x6B175474E89094C44Da98b954EedeAC495271d0F".data "1000000".data respC8
      = .error ⟨uniswapMismatchMsg respC8.protocol⟩
    ∧ strIncludes (uniswapMismatchMsg respC8.protocol) "Uniswap".data = true
    ∧ strIncludes (uniswapMismatchMsg respC8.protocol) respC8.protocol = true :=
  (C8_protocol_mismatch_guard "0xA0b86991c6218b36c1d19D4a2e9Eb0cE3606eB48".data
    "0x6B175474E89094C44Da98b954EedeAC495271d0F".data "1000000".data respC8
    (by decide) (by decide) (by decide)).1 (by decide)

/-! ## TransactionHelper.ts -/

/-- `TransactionRequest` from `TransactionHelper.ts`. -/
structure TransactionRequest where
  «to» : Str
  data : Str
  value : Option Str := none
  gasLimit : Option Str := none
  gasPrice : Option Str := none
  maxFeePerGas : Option Str := none
  maxPriorityFeePerGas : Option Str := none
  nonce : Option Int := none
deriving DecidableEq, Repr

/-- The transaction object passed to `eth_sendTransaction` after the
`x || undefined` defaults and the deletion of `undefined` fields (`none` =
the key is absent from the submitted object). -/
structure SentTx where
  «to» : Str
  data : Str
  value : Str
  gas : Option Str
  gasPrice : Option Str
  maxFeePerGas : Option Str
  maxPriorityFeePerGas : Option Str
  nonce : Option Int
deriving DecidableEq, Repr

/-- `x || undefined` for an optional string field. -/
def jsOrUndefStr (a : Option Str) : Option Str :=
  if truthyStr a then a else none

/-- `x || undefined` for an optional number field (`0` is falsy). -/
def jsOrUndefInt (a : Option Int) : Option Int :=
  match a with
  | some n => if n = 0 then none else some n
  | none => none

/-- JS number-truthiness of an optional number. -/
def truthyOptInt (a : Option Int) : Bool :=
  match a with
  | some n => n != 0
  | none => false

/-- `TransactionHelper.signAndSend`: requires at least one account from the
wallet transport, then submits via `eth_sendTransaction` the object with
`value` defaulted to `"0x0"` and every other optional field kept only when
truthy.  The embedding returns the submitted transaction object (the
observable the claims are about); the accounts list is the result of the
`eth_accounts` transport call. -/
def signAndSend (accounts : List Str) (tx : TransactionRequest) : Except JsError SentTx :=
  if accounts.isEmpty then
    .error ⟨"Transaction failed: No wallet connected. Please connect your wallet first.".data⟩
  else
    .ok ⟨tx.«to», tx.data, jsOrStr tx.value "0x0".data,
      jsOrUndefStr tx.gasLimit, jsOrUndefStr tx.gasPrice, jsOrUndefStr tx.maxFeePerGas,
      jsOrUndefStr tx.maxPriorityFeePerGas, jsOrUndefInt tx.nonce⟩

theorem jsOrUndefStr_isSome (a : Option Str) : (jsOrUndefStr a).isSome = truthyStr a := by
  unfold jsOrUndefStr
  split
  · rename_i hcond
    match a, hcond with
    | some s, hcond => simpa using hcond
  · rename_i hcond
    simpa using (Bool.not_eq_true _).mp hcond

theorem jsOrUndefInt_isSome (a : Option Int) : (jsOrUndefInt a).isSome = truthyOptInt a := by
  unfold jsOrUndefInt truthyOptInt
  match a with
  | none => rfl
  | some n =>
    by_cases h : n = 0
    · simp [h]
    · simp [h]

/-- C10: for every `TransactionRequest` (given a connected account),
`signAndSend` submits a transaction whose `value` defaults to `"0x0"` when
absent, in which each other optional field is present exactly when its
given value is truthy, and in which a nonce equal to 0 is silently
omitted. -/
theorem C10_signAndSend_optional_fields (accounts : List Str) (tx : TransactionRequest)
    (hacc : accounts ≠ []) :
    ∃ sent, signAndSend accounts tx = .ok sent
      ∧ (tx.value = none → sent.value = "0x0".data)
      ∧ (truthyStr tx.value = true → sent.value = tx.value.getD [])
      ∧ sent.«to» = tx.«to» ∧ sent.data = tx.data
      ∧ sent.gas.isSome = truthyStr tx.gasLimit
      ∧ sent.gasPrice.isSome = truthyStr tx.gasPrice
      ∧ sent.maxFeePerGas.isSome = truthyStr tx.maxFeePerGas
      ∧ sent.maxPriorityFeePerGas.isSome = truthyStr tx.maxPriorityFeePerGas
      ∧ sent.nonce.isSome = truthyOptInt tx.nonce
      ∧ (tx.nonce = some 0 → sent.nonce = none) := by
  refine ⟨⟨tx.«to», tx.data, jsOrStr tx.value "0x0".data,
      jsOrUndefStr tx.gasLimit, jsOrUndefStr tx.gasPrice, jsOrUndefStr tx.maxFeePerGas,
      jsOrUndefStr tx.maxPriorityFeePerGas, jsOrUndefInt tx.nonce⟩,
    ?_, ?_, ?_, rfl, rfl, jsOrUndefStr_isSome _, jsOrUndefStr_isSome _,
    jsOrUndefStr_isSome _, jsOrUndefStr_isSome _, jsOrUndefInt_isSome _, ?_⟩
  · unfold signAndSend
    rw [if_neg (by simp [hacc])]
  · intro h
    show jsOrStr tx.value "0x0".data = "0x0".data
    rw [h]
    rfl
  · intro h
    show jsOrStr tx.value "0x0".data = tx.value.getD []
    match hv : tx.value, h with
    | some v, h =>
      have hne : v.isEmpty = false := by simpa [truthyStr] using h
      simp [jsOrStr, hne]
  · intro h
    show jsOrUndefInt tx.nonce = none
    rw [h]
    rfl

/-- Witness for `C10_signAndSend_optional_fields`: a request with
`nonce: 0`, a truthy `gasLimit` and no `value`. -/
theorem C10_signAndSend_optional_fields_witness :
    ∃ sent, signAndSend ["0xA0b86991c6218b36c1d19D4a2e9Eb0cE3606eB48".data]
        ⟨"0xFa907c9ca64B72420f04AFFa4e70619991C6c6e2".data, "0x".data, none,
          some "21000".data, none, none, none, some 0⟩ = .ok sent
      ∧ (((none : Option Str) = none) → sent.value = "0x0".data)
      ∧ (truthyStr (none : Option Str) = true → sent.value = (none : Option Str).getD [])
      ∧ sent.«to» = "0xFa907c9ca64B72420f04AFFa4e70619991C6c6e2".data
      ∧ sent.data = "0x".data
      ∧ sent.gas.isSome = truthyStr (some "21000".data)
      ∧ sent.gasPrice.isSome = truthyStr (none : Option Str)
      ∧ sent.maxFeePerGas.isSome = truthyStr (none : Option Str)
      ∧ sent.maxPriorityFeePerGas.isSome = truthyStr (none : Option Str)
      ∧ sent.nonce.isSome = truthyOptInt (some 0)
      ∧ ((some (0 : Int) = some 0) → sent.nonce = none) :=
  C10_signAndSend_optional_fields _ _ (by decide)
